import Mathlib

/-!
Shallow embedding of the schoolapp-api backend (src/app.py and
src/librus_api.py).  Upstream HTTP responses are modelled as an
`UpstreamResp` value per `get_data` call; JSON bodies are modelled by the
`Json` type below.  Python semantics that matter for the embedded code
(truthiness, `dict.get`, subscripting, `in`, hashability of dict keys,
`str.lower`, string containment, `or`, banker's rounding of `round`,
stable `list.sort`) are modelled by the `py*` helpers.  The attendance
percentage, which the source computes in binary floating point as
`round((p+l)/total*100)`, is modelled bit-exactly: `divDouble` and
`mulDouble100` perform correctly rounded (nearest, ties-to-even) IEEE-754
binary64 division and multiplication over the naturals, and `pyRound` is
Python 3's round-half-to-even.  Wall-clock timestamps (`time.time()`) are
modelled as rationals.
-/

namespace SchoolApp

/-- Scalar JSON values.  These are exactly the values Python may use as
dictionary keys (hashable values); lists and dicts are unhashable. -/
inductive JScalar where
  | null
  | bool (b : Bool)
  | num (n : Int)
  | str (s : String)
deriving DecidableEq

/-- JSON values as delivered by `resp.json()`. -/
inductive Json where
  | scalar (v : JScalar)
  | arr (elems : List Json)
  | obj (fields : List (String × Json))

def Json.jnull : Json := .scalar .null
def Json.jbool (b : Bool) : Json := .scalar (.bool b)
def Json.jnum (n : Int) : Json := .scalar (.num n)
def Json.jstr (s : String) : Json := .scalar (.str s)

/-- Python truthiness of a JSON value. -/
def pyTruthy : Json → Bool
  | .scalar .null => false
  | .scalar (.bool b) => b
  | .scalar (.num n) => n != 0
  | .scalar (.str s) => s != ""
  | .arr xs => !xs.isEmpty
  | .obj fs => !fs.isEmpty

/-- Field lookup in a JSON object (none on non-objects or missing keys). -/
def Json.lookup : Json → String → Option Json
  | .obj fs, k => (fs.find? (fun p => p.1 == k)).map (fun p => p.2)
  | _, _ => none

/-- Python `x.get(k, dflt)`: `AttributeError` unless `x` is a dict. -/
def pyDictGet (j : Json) (k : String) (dflt : Json) : Except String Json :=
  match j with
  | .obj _ => .ok ((j.lookup k).getD dflt)
  | _ => .error "AttributeError"

/-- Python `x[k]` with a string key: `KeyError` on a dict miss,
`TypeError` on non-dicts. -/
def pySubscript (j : Json) (k : String) : Except String Json :=
  match j with
  | .obj _ =>
    match j.lookup k with
    | some v => .ok v
    | none => .error "KeyError"
  | _ => .error "TypeError"

/-- Python hashing of a prospective dict key: lists and dicts raise
`TypeError: unhashable type`. -/
def pyHashable : Json → Except String JScalar
  | .scalar v => .ok v
  | _ => .error "TypeError"

/-- Python iteration (`for x in j`): lists yield elements, dicts yield
their keys, strings yield 1-character strings, scalars raise. -/
def pyIter : Json → Except String (List Json)
  | .arr xs => .ok xs
  | .obj fs => .ok (fs.map (fun p => Json.jstr p.1))
  | .scalar (.str s) => .ok (s.toList.map (fun c => Json.jstr c.toString))
  | _ => .error "TypeError"

/-- `isPrefixList n h`: `n` is a prefix of `h` (over characters). -/
def isPrefixList : List Char → List Char → Bool
  | [], _ => true
  | _ :: _, [] => false
  | a :: as, b :: bs => a == b && isPrefixList as bs

/-- `containsSub n h`: `n` occurs as a contiguous run inside `h`. -/
def containsSub (needle : List Char) : List Char → Bool
  | [] => isPrefixList needle []
  | c :: t => isPrefixList needle (c :: t) || containsSub needle t

/-- Python `needle in hay` for strings. -/
def strContains (hay needle : String) : Bool := containsSub needle.toList hay.toList

/-- Equality of a JSON value with a Python string (used by `in` on lists). -/
def jsonEqStr (j : Json) (s : String) : Bool :=
  match j with
  | .scalar (.str t) => t == s
  | _ => false

/-- Python `needle in j` for a string needle: key membership for dicts,
element membership for lists, substring test for strings, `TypeError`
otherwise. -/
def pyIn (needle : String) (j : Json) : Except String Bool :=
  match j with
  | .obj fs => .ok (fs.any (fun p => p.1 == needle))
  | .arr xs => .ok (xs.any (fun x => jsonEqStr x needle))
  | .scalar (.str s) => .ok (strContains s needle)
  | _ => .error "TypeError"

/-- Lower-casing of one character as Python `str.lower` does it, for the
alphabets the upstream portal actually emits (ASCII plus the Polish
diacritics that can occur in attendance-type names such as
"Spóźnienie"). -/
def pyLowerChar (c : Char) : Char :=
  match c with
  | 'Ą' => 'ą'
  | 'Ć' => 'ć'
  | 'Ę' => 'ę'
  | 'Ł' => 'ł'
  | 'Ń' => 'ń'
  | 'Ó' => 'ó'
  | 'Ś' => 'ś'
  | 'Ź' => 'ź'
  | 'Ż' => 'ż'
  | _ => c.toLower

/-- Python `s.lower()` for a string. -/
def pyLowerString (s : String) : String := ⟨s.toList.map pyLowerChar⟩

/-- Python `j.lower()`: `AttributeError` unless `j` is a string. -/
def pyLowerStr (j : Json) : Except String String :=
  match j with
  | .scalar (.str s) => .ok (pyLowerString s)
  | _ => .error "AttributeError"

mutual

/-- Python `repr()` of a JSON value (enough for f-string interpolation of
the teacher name fields; string escaping is not modelled). -/
def pyRepr : Json → String
  | .scalar .null => "None"
  | .scalar (.bool true) => "True"
  | .scalar (.bool false) => "False"
  | .scalar (.num n) => toString n
  | .scalar (.str s) => "'" ++ s ++ "'"
  | .arr xs => "[" ++ pyReprList xs ++ "]"
  | .obj fs => "\x7b" ++ pyReprFields fs ++ "\x7d"

/-- Comma-separated reprs of list elements. -/
def pyReprList : List Json → String
  | [] => ""
  | [x] => pyRepr x
  | x :: y :: t => pyRepr x ++ ", " ++ pyReprList (y :: t)

/-- Comma-separated reprs of dict entries. -/
def pyReprFields : List (String × Json) → String
  | [] => ""
  | [(k, v)] => "'" ++ k ++ "': " ++ pyRepr v
  | (k, v) :: q :: t => "'" ++ k ++ "': " ++ pyRepr v ++ ", " ++ pyReprFields (q :: t)

end

/-- Python `str()` of a JSON value (f-string interpolation). -/
def pyStr : Json → String
  | .scalar .null => "None"
  | .scalar (.bool true) => "True"
  | .scalar (.bool false) => "False"
  | .scalar (.num n) => toString n
  | .scalar (.str s) => s
  | .arr xs => pyRepr (.arr xs)
  | .obj fs => pyRepr (.obj fs)

/-- ASCII whitespace as Python `str.strip` treats it. -/
def isPyWhitespace (c : Char) : Bool :=
  c.toNat == 32 || (9 ≤ c.toNat && c.toNat ≤ 13)

/-- Python `s.strip()`: drop whitespace from both ends. -/
def pyStrip (s : String) : String :=
  ⟨((s.toList.dropWhile isPyWhitespace).reverse.dropWhile isPyWhitespace).reverse⟩

/-- Python 3 `or`: the first operand if truthy, else the second. -/
def pyOr (a b : Json) : Json := if pyTruthy a then a else b

/-- A Python dict with hashable keys, in insertion order. -/
abbrev PyDict (α : Type) := List (JScalar × α)

/-- Python `d[k] = v`: overwrite in place, or append a fresh key. -/
def dictInsert {α : Type} (d : PyDict α) (k : JScalar) (v : α) : PyDict α :=
  if d.any (fun p => p.1 == k) then
    d.map (fun p => if p.1 == k then (p.1, v) else p)
  else d ++ [(k, v)]

/-- Python `d.get(k)` without default. -/
def dictGet? {α : Type} (d : PyDict α) (k : JScalar) : Option α :=
  (d.find? (fun p => p.1 == k)).map (fun p => p.2)

/-- Python `d.get(k, dflt)`. -/
def dictGetD {α : Type} (d : PyDict α) (k : JScalar) (dflt : α) : α :=
  (dictGet? d k).getD dflt

/-- Outcome of one upstream `GET` as seen by `LibrusAPI.get_data`. -/
inductive UpstreamResp where
  | ok (body : Json)
  | unauthorized
  | otherStatus
  | exn (msg : String)

/-- `LibrusAPI.get_data`: 200 gives the parsed body, 401 gives the
`session_expired` error dict, other statuses give `None`, and a transport
exception gives an error dict carrying the exception text. -/
def get_data (cookiesTruthy : Bool) (resp : UpstreamResp) : Option Json :=
  if cookiesTruthy then
    match resp with
    | .ok body => some body
    | .unauthorized => some (.obj [("error", Json.jstr "session_expired")])
    | .otherStatus => none
    | .exn msg => some (.obj [("error", Json.jstr msg)])
  else none

/-- `LibrusAPI.get_subjects`: build an id → name dict from the
`Subjects` resource; empty dict when the response is falsy or lacks the
key. -/
def get_subjects (data : Option Json) : Except String (PyDict Json) :=
  match data with
  | none => .ok []
  | some j =>
    if pyTruthy j then do
      let present ← pyIn "Subjects" j
      if present then do
        let lst ← pySubscript j "Subjects"
        let items ← pyIter lst
        items.foldlM (fun d x => do
          let i ← pySubscript x "Id"
          let n ← pySubscript x "Name"
          let k ← pyHashable i
          pure (dictInsert d k n)) []
      else .ok []
    else .ok []

/-- `LibrusAPI.get_teachers`: id → {FirstName, LastName} from `Users`. -/
def get_teachers (data : Option Json) : Except String (PyDict Json) :=
  match data with
  | none => .ok []
  | some j =>
    if pyTruthy j then do
      let present ← pyIn "Users" j
      if present then do
        let lst ← pySubscript j "Users"
        let items ← pyIter lst
        items.foldlM (fun d x => do
          let i ← pySubscript x "Id"
          let fn ← pyDictGet x "FirstName" (Json.jstr "")
          let ln ← pyDictGet x "LastName" (Json.jstr "")
          let k ← pyHashable i
          pure (dictInsert d k (.obj [("FirstName", fn), ("LastName", ln)]))) []
      else .ok []
    else .ok []

/-- `LibrusAPI.get_lessons`: lesson id → subject id from `Lessons`. -/
def get_lessons (data : Option Json) : Except String (PyDict Json) :=
  match data with
  | none => .ok []
  | some j =>
    if pyTruthy j then do
      let present ← pyIn "Lessons" j
      if present then do
        let lst ← pySubscript j "Lessons"
        let items ← pyIter lst
        items.foldlM (fun d x => do
          let i ← pySubscript x "Id"
          let sub ← pySubscript x "Subject"
          let sid ← pySubscript sub "Id"
          let k ← pyHashable i
          pure (dictInsert d k sid)) []
      else .ok []
    else .ok []

/-- `LibrusAPI.get_attendance_types`: type id → descriptor from
`Attendances/Types` (the body's key is `Types`). -/
def get_attendance_types (data : Option Json) : Except String (PyDict Json) :=
  match data with
  | none => .ok []
  | some j =>
    if pyTruthy j then do
      let present ← pyIn "Types" j
      if present then do
        let lst ← pySubscript j "Types"
        let items ← pyIter lst
        items.foldlM (fun d x => do
          let i ← pySubscript x "Id"
          let p ← pyDictGet x "IsPresenceKind" (Json.jbool false)
          let n ← pyDictGet x "Name" (Json.jstr "")
          let s ← pyDictGet x "Short" (Json.jstr "")
          let k ← pyHashable i
          pure (dictInsert d k
            (.obj [("isPresence", p), ("name", n), ("short", s)]))) []
      else .ok []
    else .ok []

/-- The grade-category dict built inline by `LibrusAPI.get_grades` from
the `Grades/Categories` resource. -/
def gradeCategories (data : Option Json) : Except String (PyDict Json) :=
  match data with
  | none => .ok []
  | some j =>
    if pyTruthy j then do
      let present ← pyIn "Categories" j
      if present then do
        let lst ← pySubscript j "Categories"
        let items ← pyIter lst
        items.foldlM (fun d cat => do
          let n ← pyDictGet cat "Name" (Json.jstr "")
          let w ← pyDictGet cat "Weight" (Json.jnum 0)
          let i ← pySubscript cat "Id"
          let k ← pyHashable i
          pure (dictInsert d k (.obj [("name", n), ("weight", w)]))) []
      else .ok []
    else .ok []

/-! ### Attendance aggregation (`LibrusAPI.get_attendances`) -/

/-- The five attendance categories of the aggregation engine. -/
inductive Cat where
  | present
  | absent
  | late
  | excused
  | other
deriving DecidableEq

/-- The global `stats` counters. -/
structure Stats where
  present : Nat
  absent : Nat
  late : Nat
  excused : Nat
  other : Nat
deriving DecidableEq

/-- The per-subject counters kept in `by_subject`. -/
structure Counters where
  present : Nat
  absent : Nat
  late : Nat
  excused : Nat
deriving DecidableEq

/-- One element of the per-record `result` list. -/
structure AttEntry where
  date : Json
  subject : JScalar
  typeName : Json
  shortCode : Json
  category : Cat
  semester : Json
  teacher : String

/-- One element of the sorted `bySubject` breakdown. -/
structure SubjEntry where
  name : JScalar
  present : Nat
  excused : Nat
  absent : Nat
  late : Nat
  percentage : Nat
deriving DecidableEq

/-- Round half to even of the exact non-negative ratio `num / den`
(`den > 0`): this is Python 3 `round` on an exactly represented value,
and also the mantissa rounding of the binary64 model below. -/
def pyRound (num den : Nat) : Nat :=
  let q := num / den
  let r := num % den
  if 2 * r < den then q
  else if den < 2 * r then q + 1
  else if q % 2 == 0 then q else q + 1

/-- `⌊log2 n⌋` by fuelled halving (0 for `n ≤ 1`); structural, so it
evaluates by kernel reduction. -/
def log2Fuel : Nat → Nat → Nat
  | 0, _ => 0
  | fuel + 1, n => if n ≤ 1 then 0 else log2Fuel fuel (n / 2) + 1

/-- `⌊log2 n⌋` (0 for `n ≤ 1`). -/
def natLog2 (n : Nat) : Nat := log2Fuel n n

/-- The exact rational `n·2^k/d` as a numerator/denominator pair. -/
def fracShift (n d : Nat) (k : Int) : Nat × Nat :=
  if 0 ≤ k then (n * 2 ^ k.toNat, d) else (n, d * 2 ^ (-k).toNat)

/-- Correctly rounded IEEE-754 binary64 division `n / d` of two
non-negative integers (round to nearest, ties to even), returned as the
exact value `m · 2^e`.  Subnormal results are rounded at the fixed unit
`2^(-1074)`; magnitudes at or above `2^1024` (unreachable here, since
both call sites divide a sum of counters by a larger sum) are not
special-cased to infinity. -/
def divDouble (n d : Nat) : Nat × Int :=
  if n = 0 ∨ d = 0 then (0, 0)
  else
    let t : Int := (natLog2 n : Int) - (natLog2 d : Int)
    let k1 : Int := 52 - t
    let p1 := fracShift n d k1
    let k : Int := if p1.1 / p1.2 < 2 ^ 52 then k1 + 1 else k1
    let k2 : Int := if 1074 < k then 1074 else k
    let p2 := fracShift n d k2
    (pyRound p2.1 p2.2, -k2)

/-- Correctly rounded binary64 multiplication of the double `m · 2^e` by
the exactly representable constant 100. -/
def mulDouble100 (m : Nat) (e : Int) : Nat × Int :=
  let M := m * 100
  if M < 2 ^ 53 then (M, e)
  else
    let s := natLog2 M - 52
    (pyRound M (2 ^ s), e + s)

/-- Python `round` (half to even) of the non-negative double `m · 2^e`. -/
def pyRoundDouble (m : Nat) (e : Int) : Nat :=
  if 0 ≤ e then m * 2 ^ e.toNat else pyRound m (2 ^ (-e).toNat)

/-- `round(n/d*100)` exactly as the Python source evaluates it: binary64
division, binary64 multiplication by 100, then integer rounding half to
even of the resulting double. -/
def pyFloatPct (n d : Nat) : Nat :=
  let x := divDouble n d
  let y := mulDouble100 x.1 x.2
  pyRoundDouble y.1 y.2

/-- The classification `if`-chain of the aggregation loop.  `shortLower`
is the already lower-cased short code; `nameJson` is the raw descriptor
name, lower-cased lazily exactly when the first branch needs it. -/
def classify (shortLower : String) (isPresence : Json) (nameJson : Json) :
    Except String Cat :=
  if shortLower == "sp" then .ok .late
  else do
    let nameLower ← pyLowerStr nameJson
    if strContains nameLower "spóźn" then .ok .late
    else if pyTruthy isPresence || shortLower == "ob" then .ok .present
    else if shortLower == "u" || shortLower == "nu" || shortLower == "us" then .ok .excused
    else if shortLower == "nb" then .ok .absent
    else .ok .other

/-- Increment the global counter of a category. -/
def bumpStats (st : Stats) : Cat → Stats
  | .present => { st with present := st.present + 1 }
  | .absent => { st with absent := st.absent + 1 }
  | .late => { st with late := st.late + 1 }
  | .excused => { st with excused := st.excused + 1 }
  | .other => { st with other := st.other + 1 }

/-- Increment a per-subject counter; `other` records are not counted. -/
def bumpCounters (c : Counters) : Cat → Counters
  | .present => { c with present := c.present + 1 }
  | .absent => { c with absent := c.absent + 1 }
  | .late => { c with late := c.late + 1 }
  | .excused => { c with excused := c.excused + 1 }
  | .other => c

/-- `by_subject[subject_name][category] += 1`. -/
def subjDictBump (d : PyDict Counters) (k : JScalar) (cat : Cat) :
    PyDict Counters :=
  d.map (fun p => if p.1 == k then (p.1, bumpCounters p.2 cat) else p)

/-- The lesson → subject → name resolution of the attendance loop:
`subjects.get(lessons.get(lesson_id), "Nieznany")`. -/
def resolveSubjectName (subjects lessons : PyDict Json) (lessonId : Json) :
    Except String Json := do
  let lessonKey ← pyHashable lessonId
  let subjectId := dictGetD lessons lessonKey Json.jnull
  let subjectKey ← pyHashable subjectId
  pure (dictGetD subjects subjectKey (Json.jstr "Nieznany"))

/-- The direct subject-id resolution of the grades loop:
`subjects.get(subject_id, "Nieznany")`. -/
def resolveSubjectNameById (subjects : PyDict Json) (subjectId : Json) :
    Except String Json := do
  let subjectKey ← pyHashable subjectId
  pure (dictGetD subjects subjectKey (Json.jstr "Nieznany"))

/-- The mutable state of the attendance loop. -/
structure AttState where
  out : List AttEntry
  stats : Stats
  bySubj : PyDict Counters

/-- One iteration of the `for att in attendances_data["Attendances"]`
loop. -/
def attStep (subjects teachers lessons types : PyDict Json)
    (st : AttState) (att : Json) : Except String AttState := do
  let typeObj ← pyDictGet att "Type" (.obj [])
  let typeId ← pyDictGet typeObj "Id" Json.jnull
  let lessonObj ← pyDictGet att "Lesson" (.obj [])
  let lessonId ← pyDictGet lessonObj "Id" Json.jnull
  let addedBy ← pyDictGet att "AddedBy" (.obj [])
  let teacherId ← pyDictGet addedBy "Id" Json.jnull
  let typeKey ← pyHashable typeId
  let attType := dictGetD types typeKey (.obj [])
  let subjectName ← resolveSubjectName subjects lessons lessonId
  let teacherKey ← pyHashable teacherId
  let teacher := dictGetD teachers teacherKey
    (.obj [("FirstName", Json.jstr ""), ("LastName", Json.jstr "")])
  let subjNameKey ← pyHashable subjectName
  let bySubj1 := if st.bySubj.any (fun p => p.1 == subjNameKey) then st.bySubj
    else st.bySubj ++ [(subjNameKey, ⟨0, 0, 0, 0⟩)]
  let shortJ ← pyDictGet attType "short" (Json.jstr "")
  let shortLower ← pyLowerStr shortJ
  let isPresence ← pyDictGet attType "isPresence" (Json.jbool false)
  let nameJ ← pyDictGet attType "name" (Json.jstr "")
  let category ← classify shortLower isPresence nameJ
  let stats1 := bumpStats st.stats category
  let bySubj2 := subjDictBump bySubj1 subjNameKey category
  let dateJ ← pyDictGet att "Date" Json.jnull
  let semJ ← pyDictGet att "Semester" (Json.jnum 1)
  let fn ← pyDictGet teacher "FirstName" (Json.jstr "")
  let ln ← pyDictGet teacher "LastName" (Json.jstr "")
  let entry : AttEntry :=
    ⟨dateJ, subjNameKey, nameJ, shortJ, category, semJ,
      pyStrip (pyStr fn ++ " " ++ pyStr ln)⟩
  pure ⟨st.out ++ [entry], stats1, bySubj2⟩

/-- Numeric value of a scalar under Python's cross-type comparison
(`bool` is an `int` subtype); `none` for non-numeric scalars. -/
def scalarNumVal : JScalar → Option Int
  | .num n => some n
  | .bool b => some (if b then 1 else 0)
  | _ => none

/-- Python `<=` on the character lists of two strings (code points). -/
def charListLe : List Char → List Char → Bool
  | [], _ => true
  | _ :: _, [] => false
  | a :: as, b :: bs =>
    if a.toNat < b.toNat then true
    else if b.toNat < a.toNat then false
    else charListLe as bs

/-- Python `<=` on strings. -/
def strLe (s t : String) : Bool := charListLe s.toList t.toList

/-- Can Python order these two scalars? (numbers with numbers, strings
with strings). -/
def sameClass (a b : JScalar) : Bool :=
  ((scalarNumVal a).isSome && (scalarNumVal b).isSome) ||
    (match a, b with
     | .str _, .str _ => true
     | _, _ => false)

/-- Python `<=` on two comparable scalars (arbitrary on incomparable
pairs, which `pySorted` rejects). -/
def keyLE (a b : JScalar) : Bool :=
  match scalarNumVal a, scalarNumVal b with
  | some x, some y => decide (x ≤ y)
  | _, _ =>
    match a, b with
    | .str s, .str t => strLe s t
    | _, _ => true

/-- Insert into a sorted list, before the first element it compares
`le` to: the insertion step of a stable insertion sort. -/
def insertOrd {α : Type} (le : α → α → Bool) (x : α) : List α → List α
  | [] => [x]
  | y :: ys => if le x y then x :: y :: ys else y :: insertOrd le x ys

/-- Stable insertion sort (models Python's stable sorts: equal elements
keep their original relative order). -/
def insertionSortBy {α : Type} (le : α → α → Bool) : List α → List α
  | [] => []
  | x :: xs => insertOrd le x (insertionSortBy le xs)

/-- All keys of the dict are mutually comparable. -/
def keysComparable (l : PyDict Counters) : Bool :=
  l.all (fun p => l.all (fun q => sameClass p.1 q.1))

/-- `sorted(by_subject.items())`: sorts by key ascending; raises
`TypeError` when two keys are not mutually orderable (a comparison is
never reached on lists of length ≤ 1, and unique keys mean the tuple
comparison never looks at the values). -/
def pySorted (l : PyDict Counters) : Except String (PyDict Counters) :=
  if l.length ≤ 1 then .ok l
  else if keysComparable l then .ok (insertionSortBy (fun p q => keyLE p.1 q.1) l)
  else .error "TypeError"

/-- Build one `bySubject` output row from a `by_subject` item, with the
per-subject percentage (100 when the subject has no qualifying
records). -/
def mkSubjEntry (p : JScalar × Counters) : SubjEntry :=
  let t := p.2.present + p.2.absent + p.2.late + p.2.excused
  ⟨p.1, p.2.present, p.2.excused, p.2.absent, p.2.late,
    if t > 0 then pyFloatPct (p.2.present + p.2.late) t else 100⟩

/-- Comparator of the final percentage sort: descending, stable. -/
def pctGE (a b : SubjEntry) : Bool := decide (b.percentage ≤ a.percentage)

/-- The whole attendance summary dict. -/
structure AttSummary where
  attendances : List AttEntry
  stats : Stats
  percentage : Nat
  total : Nat
  bySubject : List SubjEntry

/-- The tail of `get_attendances` after the loop: overall percentage,
per-subject rows in sorted-name order, then the stable percentage
sort. -/
def summarize (st : AttState) (sorted : PyDict Counters) : AttSummary :=
  let total := st.stats.present + st.stats.absent + st.stats.late + st.stats.excused
  { attendances := st.out
    stats := st.stats
    percentage :=
      if total > 0 then pyFloatPct (st.stats.present + st.stats.late) total else 0
    total := total
    bySubject := insertionSortBy pctGE (sorted.map mkSubjEntry) }

/-- Possible results of `get_attendances`. -/
inductive AttOut where
  | errData (j : Json)
  | noData
  | summary (s : AttSummary)

/-- `LibrusAPI.get_attendances`, parameterized by the upstream response
of each `get_data` call it performs. -/
def get_attendances (cookies : Bool)
    (attResp subjResp usersResp lessonsResp typesResp : UpstreamResp) :
    Except String AttOut :=
  match get_data cookies attResp with
  | none => .ok .noData
  | some j =>
    if !pyTruthy j then .ok .noData
    else do
      let hasAtt ← pyIn "Attendances" j
      if !hasAtt then do
        let hasErr ← pyIn "error" j
        if hasErr then pure (.errData j) else pure .noData
      else do
        let subjects ← get_subjects (get_data cookies subjResp)
        let teachers ← get_teachers (get_data cookies usersResp)
        let lessons ← get_lessons (get_data cookies lessonsResp)
        let types ← get_attendance_types (get_data cookies typesResp)
        let rawList ← pySubscript j "Attendances"
        let items ← pyIter rawList
        let final ← items.foldlM (attStep subjects teachers lessons types)
          ⟨[], ⟨0, 0, 0, 0, 0⟩, []⟩
        let sorted ← pySorted final.bySubj
        pure (.summary (summarize final sorted))

/-! ### Grade aggregation (`LibrusAPI.get_grades`) -/

/-- One enriched grade entry. -/
structure GradeEntry where
  grade : Json
  weight : Json
  category : Json
  date : Json
  addDate : Json
  semester : Json
  isFinal : Json
  isSemester : Json
  teacher : String

/-- The per-record entry construction of the grades loop (lines that
build the appended dict, including the `or` of the final/proposition
flags). -/
def mkGradeEntry (categories teachers : PyDict Json) (grade : Json) :
    Except String GradeEntry := do
  let catObj ← pyDictGet grade "Category" (.obj [])
  let catId ← pyDictGet catObj "Id" Json.jnull
  let catKey ← pyHashable catId
  let category := dictGetD categories catKey (.obj [])
  let addedBy ← pyDictGet grade "AddedBy" (.obj [])
  let teacherId ← pyDictGet addedBy "Id" Json.jnull
  let teacherKey ← pyHashable teacherId
  let teacher := dictGetD teachers teacherKey
    (.obj [("FirstName", Json.jstr ""), ("LastName", Json.jstr "")])
  let g ← pyDictGet grade "Grade" Json.jnull
  let w ← pyDictGet category "weight" (Json.jnum 0)
  let catName ← pyDictGet category "name" (Json.jstr "")
  let d ← pyDictGet grade "Date" Json.jnull
  let ad ← pyDictGet grade "AddDate" Json.jnull
  let sem ← pyDictGet grade "Semester" Json.jnull
  let f1 ← pyDictGet grade "IsFinal" (Json.jbool false)
  let f2 ← pyDictGet grade "IsFinalProposition" (Json.jbool false)
  let s1 ← pyDictGet grade "IsSemester" (Json.jbool false)
  let s2 ← pyDictGet grade "IsSemesterProposition" (Json.jbool false)
  let fn ← pyDictGet teacher "FirstName" (Json.jstr "")
  let ln ← pyDictGet teacher "LastName" (Json.jstr "")
  pure ⟨g, w, catName, d, ad, sem, pyOr f1 f2, pyOr s1 s2,
    pyStrip (pyStr fn ++ " " ++ pyStr ln)⟩

/-- One iteration of the `for grade in grades_data["Grades"]` loop:
resolve the subject, create its bucket on first sight, append the
enriched entry. -/
def gradeStep (subjects categories teachers : PyDict Json)
    (res : PyDict (List GradeEntry)) (grade : Json) :
    Except String (PyDict (List GradeEntry)) := do
  let subjObj ← pyDictGet grade "Subject" (.obj [])
  let subjId ← pyDictGet subjObj "Id" Json.jnull
  let subjectName ← resolveSubjectNameById subjects subjId
  let nameKey ← pyHashable subjectName
  let res1 := if res.any (fun p => p.1 == nameKey) then res
    else res ++ [(nameKey, [])]
  let entry ← mkGradeEntry categories teachers grade
  pure (res1.map (fun p => if p.1 == nameKey then (p.1, p.2 ++ [entry]) else p))

/-- Possible results of `get_grades`. -/
inductive GradesOut where
  | errData (j : Json)
  | noData
  | summary (grades : PyDict (List GradeEntry))

/-- `LibrusAPI.get_grades`, parameterized by the upstream responses. -/
def get_grades (cookies : Bool)
    (gradesResp subjResp usersResp catsResp : UpstreamResp) :
    Except String GradesOut :=
  match get_data cookies gradesResp with
  | none => .ok .noData
  | some j =>
    if !pyTruthy j then .ok .noData
    else do
      let hasG ← pyIn "Grades" j
      if !hasG then do
        let hasErr ← pyIn "error" j
        if hasErr then pure (.errData j) else pure .noData
      else do
        let subjects ← get_subjects (get_data cookies subjResp)
        let teachers ← get_teachers (get_data cookies usersResp)
        let categories ← gradeCategories (get_data cookies catsResp)
        let rawList ← pySubscript j "Grades"
        let items ← pyIter rawList
        let res ← items.foldlM (gradeStep subjects categories teachers) []
        pure (.summary res)

/-! ### Sessions and rate limiting (`src/app.py`) -/

/-- One stored session: the auth cookie bundle, the profile, and the
creation timestamp. -/
structure SessionData where
  cookies : Json
  user : Json
  created : ℚ

/-- `SESSION_TIMEOUT` (15 minutes, seconds). -/
def SESSION_TIMEOUT : ℚ := 15 * 60

/-- `MAX_LOGIN_ATTEMPTS`. -/
def MAX_LOGIN_ATTEMPTS : Nat := 5

/-- `LOGIN_WINDOW` (seconds). -/
def LOGIN_WINDOW : ℚ := 300

/-- `cleanup_old_sessions`: drop every session older than the timeout. -/
def cleanup_old_sessions (now : ℚ) (sessions : List (String × SessionData)) :
    List (String × SessionData) :=
  sessions.filter (fun p => !decide (now - p.2.created > SESSION_TIMEOUT))

/-- `get_session`: lazy sweep, then lookup; expired or unknown tokens
both produce `none`.  Returns the resulting session store as well. -/
def get_session (now : ℚ) (sessions : List (String × SessionData))
    (token : String) : Option SessionData × List (String × SessionData) :=
  let s1 := cleanup_old_sessions now sessions
  match s1.find? (fun p => p.1 == token) with
  | none => (none, s1)
  | some p =>
    if now - p.2.created > SESSION_TIMEOUT then
      (none, s1.filter (fun q => !(q.1 == token)))
    else (some p.2, s1)

/-- The authorization step shared by the `/librus/*` data endpoints:
a falsy `get_session` result is answered with the single
"Session expired" error, whatever its cause. -/
def endpointAuth (now : ℚ) (sessions : List (String × SessionData))
    (token : String) : Except String SessionData :=
  match (get_session now sessions token).1 with
  | none => .error "Session expired"
  | some s => .ok s

/-- `check_rate_limit`: prune the attempt log to the trailing window,
then allow iff strictly fewer than the maximum remain.  Returns the
pruned log (the code writes it back). -/
def check_rate_limit (now : ℚ) (log : List ℚ) : Bool × List ℚ :=
  let pruned := log.filter (fun t => decide (now - t < LOGIN_WINDOW))
  (decide (pruned.length < MAX_LOGIN_ATTEMPTS), pruned)

/-- `record_login_attempt`. -/
def record_login_attempt (now : ℚ) (log : List ℚ) : List ℚ := log ++ [now]

/-- One login attempt as `/librus/login` drives the limiter: check,
then record only when allowed. -/
def loginFlow (now : ℚ) (log : List ℚ) : Bool × List ℚ :=
  let c := check_rate_limit now log
  if c.1 then (true, record_login_attempt now c.2) else (false, c.2)

/-- A sequence of login attempts at the given times; yields the allow
verdicts and the final log. -/
def runAttempts : List ℚ → List ℚ → List Bool × List ℚ
  | [], log => ([], log)
  | t :: ts, log =>
    let r := loginFlow t log
    let rest := runAttempts ts r.2
    (r.1 :: rest.1, rest.2)

/-! ### Specification-side definitions (for refinement statements) -/

/-- The classification precedence exactly as the specification words it
(first match wins), on an already lower-cased short code and descriptor
name.  To be compared with `classify`, which is the code's chain. -/
def specClassify (short : String) (isPres : Bool) (nameLower : String) : Cat :=
  if short == "sp" || strContains nameLower "spóźn" then .late
  else if isPres || short == "ob" then .present
  else if short == "u" || short == "nu" || short == "us" then .excused
  else if short == "nb" then .absent
  else .other

/-- The claimed overall percentage formula read as exact arithmetic:
round-half-even of the exact ratio
`(present+late)/(present+absent+late+excused)*100`, 0 on an empty
denominator.  The program's floating-point evaluation deviates from this
at near-half ratios (see the counterexample below). -/
def overallPercentageSpec (p a l e : Nat) : Nat :=
  if p + a + l + e = 0 then 0 else pyRound ((p + l) * 100) (p + a + l + e)

/-- The claimed per-subject percentage formula read as exact arithmetic:
same ratio, but 100 on an empty denominator. -/
def subjectPercentageSpec (p a l e : Nat) : Nat :=
  if p + a + l + e = 0 then 100 else pyRound ((p + l) * 100) (p + a + l + e)

/-- The overall percentage as the program computes it: Python `round` of
the binary64 evaluation of `(p+l)/(p+a+l+e)*100`, 0 on an empty
denominator. -/
def overallPercentageFloat (p a l e : Nat) : Nat :=
  if p + a + l + e = 0 then 0 else pyFloatPct (p + l) (p + a + l + e)

/-- The per-subject percentage as the program computes it: same float
evaluation, but 100 on an empty denominator. -/
def subjectPercentageFloat (p a l e : Nat) : Nat :=
  if p + a + l + e = 0 then 100 else pyFloatPct (p + l) (p + a + l + e)

/-- The breakdown rows carrying a given subject name. -/
def breakdownRowsFor (s : AttSummary) (k : JScalar) : List SubjEntry :=
  s.bySubject.filter (fun se => se.name == k)

/-! ### Auxiliary predicates used by the theorems -/

/-- Number of emitted records with the given subject and category. -/
def countCat (out : List AttEntry) (k : JScalar) (c : Cat) : Nat :=
  out.countP (fun e => e.subject == k && e.category == c)

/-- Loop invariant of the attendance aggregation: `by_subject` keys are
distinct, each per-subject counter equals the number of emitted records
of that subject and category, and every emitted record's subject has a
`by_subject` bucket. -/
def StateInv (st : AttState) : Prop :=
  (st.bySubj.map Prod.fst).Nodup ∧
  (∀ p ∈ st.bySubj,
    p.2.present = countCat st.out p.1 .present ∧
    p.2.absent = countCat st.out p.1 .absent ∧
    p.2.late = countCat st.out p.1 .late ∧
    p.2.excused = countCat st.out p.1 .excused) ∧
  (∀ e ∈ st.out, ∃ p ∈ st.bySubj, p.1 = e.subject)

/-- Strict subject-name order between two breakdown rows (ascending,
distinct names). -/
def NameLT (a b : SubjEntry) : Prop := keyLE a.name b.name = true ∧ a.name ≠ b.name

/-- The order the `bySubject` list must satisfy: percentage descending,
and ascending subject-name order between rows of equal percentage. -/
def entryR (a b : SubjEntry) : Prop :=
  b.percentage ≤ a.percentage ∧ (a.percentage = b.percentage → NameLT a b)

/-! ### Concrete upstream responses used by witnesses -/

/-- An `Attendances` body with one contentless record. -/
def attBody1 : Json := .obj [("Attendances", Json.arr [Json.obj []])]

/-- The spec's end-to-end example: one subject, records late | present |
present | absent. -/
def attBody3 : Json := .obj [("Attendances", Json.arr
  [ .obj [("Lesson", .obj [("Id", Json.jnum 10)]), ("Type", .obj [("Id", Json.jnum 1)])]
  , .obj [("Lesson", .obj [("Id", Json.jnum 10)]), ("Type", .obj [("Id", Json.jnum 2)])]
  , .obj [("Lesson", .obj [("Id", Json.jnum 10)]), ("Type", .obj [("Id", Json.jnum 2)])]
  , .obj [("Lesson", .obj [("Id", Json.jnum 10)]), ("Type", .obj [("Id", Json.jnum 3)])] ])]

/-- A `Subjects` body with one subject. -/
def subjBody3 : Json := .obj [("Subjects", Json.arr
  [ .obj [("Id", Json.jnum 1), ("Name", Json.jstr "Math")] ])]

/-- A `Lessons` body mapping lesson 10 to subject 1. -/
def lessBody3 : Json := .obj [("Lessons", Json.arr
  [ .obj [("Id", Json.jnum 10), ("Subject", .obj [("Id", Json.jnum 1)])] ])]

/-- A `Types` body: 1 = late (`sp`), 2 = present (`ob`), 3 = absent
(`nb`). -/
def typesBody3 : Json := .obj [("Types", Json.arr
  [ .obj [("Id", Json.jnum 1), ("Short", Json.jstr "sp")]
  , .obj [("Id", Json.jnum 2), ("Short", Json.jstr "ob")]
  , .obj [("Id", Json.jnum 3), ("Short", Json.jstr "nb")] ])]

/-- An `Attendances` body touching two subjects (Bio first). -/
def attBody6 : Json := .obj [("Attendances", Json.arr
  [ .obj [("Lesson", .obj [("Id", Json.jnum 20)]), ("Type", .obj [("Id", Json.jnum 3)])]
  , .obj [("Lesson", .obj [("Id", Json.jnum 10)]), ("Type", .obj [("Id", Json.jnum 2)])] ])]

/-- A `Subjects` body with two subjects. -/
def subjBody6 : Json := .obj [("Subjects", Json.arr
  [ .obj [("Id", Json.jnum 1), ("Name", Json.jstr "Alg")]
  , .obj [("Id", Json.jnum 2), ("Name", Json.jstr "Bio")] ])]

/-- A `Lessons` body mapping lessons 10/20 to subjects 1/2. -/
def lessBody6 : Json := .obj [("Lessons", Json.arr
  [ .obj [("Id", Json.jnum 10), ("Subject", .obj [("Id", Json.jnum 1)])]
  , .obj [("Id", Json.jnum 20), ("Subject", .obj [("Id", Json.jnum 2)])] ])]

/-- The summary produced from `attBody3` (checked by `rfl` below). -/
def S3 : AttSummary :=
  ⟨[ ⟨Json.jnull, .str "Math", Json.jstr "", Json.jstr "sp", .late, Json.jnum 1, ""⟩
   , ⟨Json.jnull, .str "Math", Json.jstr "", Json.jstr "ob", .present, Json.jnum 1, ""⟩
   , ⟨Json.jnull, .str "Math", Json.jstr "", Json.jstr "ob", .present, Json.jnum 1, ""⟩
   , ⟨Json.jnull, .str "Math", Json.jstr "", Json.jstr "nb", .absent, Json.jnum 1, ""⟩ ],
   ⟨2, 1, 1, 0, 0⟩, 75, 4, [⟨.str "Math", 2, 0, 1, 1, 75⟩]⟩

/-- The summary produced from `attBody6` (checked by `rfl` below). -/
def S6 : AttSummary :=
  ⟨[ ⟨Json.jnull, .str "Bio", Json.jstr "", Json.jstr "nb", .absent, Json.jnum 1, ""⟩
   , ⟨Json.jnull, .str "Alg", Json.jstr "", Json.jstr "ob", .present, Json.jnum 1, ""⟩ ],
   ⟨1, 1, 0, 0, 0⟩, 50, 2,
   [⟨.str "Alg", 1, 0, 0, 0, 100⟩, ⟨.str "Bio", 0, 0, 1, 0, 0⟩]⟩

/-- The summary produced from `attBody1` (checked by `rfl` below). -/
def S1 : AttSummary :=
  ⟨[⟨Json.jnull, .str "Nieznany", Json.jstr "", Json.jstr "", .other, Json.jnum 1, ""⟩],
   ⟨0, 0, 0, 0, 1⟩, 0, 0, [⟨.str "Nieznany", 0, 0, 0, 0, 100⟩]⟩

/-- An `Attendances` body with 23 present (`ob`) and 17 absent (`nb`)
records: the ratio 23/40 evaluates to just below 57.5 in binary64. -/
def attBodyF : Json := .obj [("Attendances", Json.arr
  (List.replicate 23 (.obj [("Type", .obj [("Id", Json.jnum 2)])]) ++
   List.replicate 17 (.obj [("Type", .obj [("Id", Json.jnum 3)])])))]

/-- The summary produced from `attBodyF` (checked by `rfl` below):
percentage 57, where exact rounding of 57.5 would give 58. -/
def SF : AttSummary :=
  ⟨List.replicate 23
      ⟨Json.jnull, .str "Nieznany", Json.jstr "", Json.jstr "ob", .present, Json.jnum 1, ""⟩ ++
   List.replicate 17
      ⟨Json.jnull, .str "Nieznany", Json.jstr "", Json.jstr "nb", .absent, Json.jnum 1, ""⟩,
   ⟨23, 17, 0, 0, 0⟩, 57, 40, [⟨.str "Nieznany", 23, 0, 17, 0, 57⟩]⟩

/-! ## Theorems -/

/-- Inversion of a successful `Except` bind. -/
theorem except_bind_ok {α β : Type} {x : Except String α} {f : α → Except String β} {b : β}
    (h : x.bind f = .ok b) : ∃ a, x = .ok a ∧ f a = .ok b := by
  cases x with
  | error e => exact absurd h (by simp [Except.bind])
  | ok a => exact ⟨a, rfl, h⟩

/-- Reduction of a bind over a successful `Except`. -/
theorem ok_bind {α β : Type} (a : α) (f : α → Except String β) :
    (Except.ok a : Except String α) >>= f = f a := rfl

/-- C2: classification is total on every record whose descriptor name is
a string, and the code's `if`-chain agrees with the spec's precedence
(first match wins) applied to the truthiness of the presence flag and the
lower-cased name; in particular a lower-cased short code "sp" always
classifies as `late`, regardless of the presence flag. -/
theorem classify_matches_spec (shortLower : String) (isPresence : Json) (name : String) :
    classify shortLower isPresence (Json.jstr name) =
      .ok (specClassify shortLower (pyTruthy isPresence) (pyLowerString name)) ∧
    classify "sp" isPresence (Json.jstr name) = .ok .late := by
  constructor
  · by_cases h : (shortLower == "sp") = true
    · simp [classify, specClassify, h]
    · simp only [Bool.not_eq_true] at h
      simp only [classify, specClassify, h, Bool.false_or, if_false, Bool.false_eq_true,
        pyLowerStr, Json.jstr, ok_bind]
      split_ifs <;> rfl
  · simp [classify]

/-- C4 (amended): every supporting-data composite fetcher returns the
empty mapping when its response is absent, falsy, or lacks the resource
key. -/
theorem supporting_fetchers_empty_on_missing
    (d1 d2 d3 d4 d5 : Option Json)
    (h1 : ∀ j, d1 = some j → pyTruthy j = false ∨ pyIn "Subjects" j = .ok false)
    (h2 : ∀ j, d2 = some j → pyTruthy j = false ∨ pyIn "Users" j = .ok false)
    (h3 : ∀ j, d3 = some j → pyTruthy j = false ∨ pyIn "Lessons" j = .ok false)
    (h4 : ∀ j, d4 = some j → pyTruthy j = false ∨ pyIn "Types" j = .ok false)
    (h5 : ∀ j, d5 = some j → pyTruthy j = false ∨ pyIn "Categories" j = .ok false) :
    get_subjects d1 = .ok [] ∧ get_teachers d2 = .ok [] ∧ get_lessons d3 = .ok [] ∧
    get_attendance_types d4 = .ok [] ∧ gradeCategories d5 = .ok [] := by
  refine ⟨?_, ?_, ?_, ?_, ?_⟩
  · cases d1 with
    | none => rfl
    | some j =>
      rcases h1 j rfl with h | h
      · simp [get_subjects, h]
      · by_cases ht : pyTruthy j <;> simp [get_subjects, ht, h, ok_bind]
  · cases d2 with
    | none => rfl
    | some j =>
      rcases h2 j rfl with h | h
      · simp [get_teachers, h]
      · by_cases ht : pyTruthy j <;> simp [get_teachers, ht, h, ok_bind]
  · cases d3 with
    | none => rfl
    | some j =>
      rcases h3 j rfl with h | h
      · simp [get_lessons, h]
      · by_cases ht : pyTruthy j <;> simp [get_lessons, ht, h, ok_bind]
  · cases d4 with
    | none => rfl
    | some j =>
      rcases h4 j rfl with h | h
      · simp [get_attendance_types, h]
      · by_cases ht : pyTruthy j <;> simp [get_attendance_types, ht, h, ok_bind]
  · cases d5 with
    | none => rfl
    | some j =>
      rcases h5 j rfl with h | h
      · simp [gradeCategories, h]
      · by_cases ht : pyTruthy j <;> simp [gradeCategories, ht, h, ok_bind]

/-- Witness for C4 (amended) at absent responses. -/
theorem supporting_fetchers_empty_on_missing_witness :
    get_subjects none = .ok [] ∧ get_teachers none = .ok [] ∧ get_lessons none = .ok [] ∧
    get_attendance_types none = .ok [] ∧ gradeCategories none = .ok [] :=
  supporting_fetchers_empty_on_missing none none none none none
    (fun _ h => Option.noConfusion h) (fun _ h => Option.noConfusion h)
    (fun _ h => Option.noConfusion h) (fun _ h => Option.noConfusion h)
    (fun _ h => Option.noConfusion h)

/-- C4 counterexample: a present `Subjects` resource with a malformed
entry (missing `Id`) raises `KeyError`, and the error propagates out of
the composite attendance fetch instead of degrading to an empty
mapping. -/
theorem supporting_fetcher_raises_on_malformed_entry :
    get_subjects (some (.obj [("Subjects", Json.arr [Json.obj []])])) = .error "KeyError" ∧
    get_attendances true (.ok (.obj [("Attendances", Json.arr [])]))
      (.ok (.obj [("Subjects", Json.arr [Json.obj []])]))
      .otherStatus .otherStatus .otherStatus = .error "KeyError" :=
  ⟨rfl, rfl⟩

/-- C5 (amended): a 401 on the primary resource propagates the
`session_expired` error dict verbatim; a transport exception propagates
its own error dict; only a silent failure (non-200/non-401 status) is
reported as the generic `no_data` signal.  Same for grades. -/
theorem primary_failure_propagation (sR uR lR tR : UpstreamResp) (m : String) :
    get_attendances true .unauthorized sR uR lR tR =
      .ok (.errData (.obj [("error", Json.jstr "session_expired")])) ∧
    get_attendances true (.exn m) sR uR lR tR =
      .ok (.errData (.obj [("error", Json.jstr m)])) ∧
    get_attendances true .otherStatus sR uR lR tR = .ok .noData ∧
    get_grades true .unauthorized sR uR tR =
      .ok (.errData (.obj [("error", Json.jstr "session_expired")])) ∧
    get_grades true (.exn m) sR uR tR = .ok (.errData (.obj [("error", Json.jstr m)])) ∧
    get_grades true .otherStatus sR uR tR = .ok .noData :=
  ⟨rfl, rfl, rfl, rfl, rfl, rfl⟩

/-- C5 counterexample: a transport exception on the primary resource is
propagated as its own error dict, not as the generic `no_data` signal. -/
theorem primary_transport_error_is_not_no_data :
    get_attendances true (.exn "timeout") .otherStatus .otherStatus .otherStatus .otherStatus =
      .ok (.errData (.obj [("error", Json.jstr "timeout")])) ∧
    AttOut.errData (.obj [("error", Json.jstr "timeout")]) ≠ AttOut.noData :=
  ⟨rfl, fun h => AttOut.noConfusion h⟩

/-- C8 (amended): whenever the lesson → subject → name chain (or the
direct subject-id lookup of the grades loop) fails to resolve, the
emitted subject label is the Polish fallback "Nieznany". -/
theorem unresolved_subject_fallback_label :
    (∀ (subjects lessons : PyDict Json) (lessonId : Json) (k : JScalar),
      pyHashable lessonId = .ok k → dictGet? lessons k = none →
      dictGet? subjects JScalar.null = none →
      resolveSubjectName subjects lessons lessonId = .ok (Json.jstr "Nieznany")) ∧
    (∀ (subjects lessons : PyDict Json) (lessonId sid : Json) (k sk : JScalar),
      pyHashable lessonId = .ok k → dictGet? lessons k = some sid →
      pyHashable sid = .ok sk → dictGet? subjects sk = none →
      resolveSubjectName subjects lessons lessonId = .ok (Json.jstr "Nieznany")) ∧
    (∀ (subjects : PyDict Json) (subjectId : Json) (sk : JScalar),
      pyHashable subjectId = .ok sk → dictGet? subjects sk = none →
      resolveSubjectNameById subjects subjectId = .ok (Json.jstr "Nieznany")) := by
  refine ⟨?_, ?_, ?_⟩
  · intro subjects lessons lessonId k hk hl hs
    unfold resolveSubjectName
    rw [hk, ok_bind]
    simp [dictGetD, hl, hs, Json.jnull, pyHashable, ok_bind, pure, Except.pure, Except.map]
  · intro subjects lessons lessonId sid k sk hk hl hsk hs
    unfold resolveSubjectName
    rw [hk, ok_bind]
    simp [dictGetD, hl, hsk, hs, ok_bind, pure, Except.pure, Except.map]
  · intro subjects subjectId sk hsk hs
    unfold resolveSubjectNameById
    rw [hsk, ok_bind]
    simp [dictGetD, hs, pure, Except.pure, Except.map]

/-- Witness for C8 (amended) at empty lookup tables. -/
theorem unresolved_subject_fallback_label_witness :
    resolveSubjectName [] [] Json.jnull = .ok (Json.jstr "Nieznany") ∧
    resolveSubjectNameById [] Json.jnull = .ok (Json.jstr "Nieznany") :=
  ⟨unresolved_subject_fallback_label.1 [] [] Json.jnull .null rfl rfl rfl,
   unresolved_subject_fallback_label.2.2 [] Json.jnull .null rfl rfl⟩

/-- C8 counterexample: the fallback label the code emits is the Polish
word "Nieznany", not the literal label "Unknown" the claim names. -/
theorem unresolved_subject_label_is_polish :
    get_attendances true (.ok attBody1) .otherStatus .otherStatus .otherStatus .otherStatus =
      .ok (.summary S1) ∧
    S1.attendances.map AttEntry.subject = [JScalar.str "Nieznany"] ∧
    JScalar.str "Nieznany" ≠ JScalar.str "Unknown" :=
  ⟨rfl, rfl, by decide⟩

/-- C9: the summary entry's final flag is the `or` of the raw
`IsFinal`/`IsFinalProposition` flags, and the semester flag the `or` of
the raw `IsSemester`/`IsSemesterProposition` flags. -/
theorem grade_final_flags_or (categories teachers : PyDict Json) (grade : Json)
    (entry : GradeEntry) (a b c d : Bool)
    (hmk : mkGradeEntry categories teachers grade = .ok entry)
    (hf : grade.lookup "IsFinal" = some (Json.jbool a))
    (hfp : grade.lookup "IsFinalProposition" = some (Json.jbool b))
    (hs : grade.lookup "IsSemester" = some (Json.jbool c))
    (hsp : grade.lookup "IsSemesterProposition" = some (Json.jbool d)) :
    entry.isFinal = Json.jbool (a || b) ∧ entry.isSemester = Json.jbool (c || d) := by
  cases grade with
  | scalar v => simp [Json.lookup] at hf
  | arr xs => simp [Json.lookup] at hf
  | obj fs =>
    unfold mkGradeEntry at hmk
    obtain ⟨catObj, hc1, hmk⟩ := except_bind_ok hmk
    obtain ⟨catId, hc2, hmk⟩ := except_bind_ok hmk
    obtain ⟨catKey, hc3, hmk⟩ := except_bind_ok hmk
    obtain ⟨addedBy, hc4, hmk⟩ := except_bind_ok hmk
    obtain ⟨teacherId, hc5, hmk⟩ := except_bind_ok hmk
    obtain ⟨teacherKey, hc6, hmk⟩ := except_bind_ok hmk
    obtain ⟨g, hg, hmk⟩ := except_bind_ok hmk
    obtain ⟨w, hw, hmk⟩ := except_bind_ok hmk
    obtain ⟨catName, hcn, hmk⟩ := except_bind_ok hmk
    obtain ⟨dte, hd, hmk⟩ := except_bind_ok hmk
    obtain ⟨ad, had, hmk⟩ := except_bind_ok hmk
    obtain ⟨sem, hsem, hmk⟩ := except_bind_ok hmk
    obtain ⟨f1, hf1, hmk⟩ := except_bind_ok hmk
    obtain ⟨f2, hf2, hmk⟩ := except_bind_ok hmk
    obtain ⟨s1, hs1, hmk⟩ := except_bind_ok hmk
    obtain ⟨s2, hs2, hmk⟩ := except_bind_ok hmk
    obtain ⟨fn, hfn, hmk⟩ := except_bind_ok hmk
    obtain ⟨ln, hln, hmk⟩ := except_bind_ok hmk
    simp only [pure, Except.pure, Except.ok.injEq] at hmk
    subst hmk
    simp only [pyDictGet, hf, Except.ok.injEq, Option.getD_some] at hf1
    simp only [pyDictGet, hfp, Except.ok.injEq, Option.getD_some] at hf2
    simp only [pyDictGet, hs, Except.ok.injEq, Option.getD_some] at hs1
    simp only [pyDictGet, hsp, Except.ok.injEq, Option.getD_some] at hs2
    subst hf1; subst hf2; subst hs1; subst hs2
    constructor
    · cases a <;> simp [pyOr, pyTruthy, Json.jbool]
    · cases c <;> simp [pyOr, pyTruthy, Json.jbool]

/-- Witness for C9: `isFinal=false` with `isFinalProposition=true`
yields a summary entry with `isFinal=true`. -/
theorem grade_final_flags_or_witness :
    (GradeEntry.mk Json.jnull (Json.jnum 0) (Json.jstr "") Json.jnull Json.jnull Json.jnull
      (Json.jbool true) (Json.jbool false) "").isFinal = Json.jbool (false || true) ∧
    (GradeEntry.mk Json.jnull (Json.jnum 0) (Json.jstr "") Json.jnull Json.jnull Json.jnull
      (Json.jbool true) (Json.jbool false) "").isSemester = Json.jbool (false || false) :=
  grade_final_flags_or [] []
    (.obj [("IsFinal", Json.jbool false), ("IsFinalProposition", Json.jbool true),
      ("IsSemester", Json.jbool false), ("IsSemesterProposition", Json.jbool false)])
    _ false true false false rfl rfl rfl rfl rfl

/-- `find?` over the lazy expiry sweep: with distinct tokens, the sweep
removes exactly the expired match. -/
theorem find?_cleanup (now : ℚ) (token : String) :
    ∀ (l : List (String × SessionData)), (l.map Prod.fst).Nodup →
      (cleanup_old_sessions now l).find? (fun p => p.1 == token) =
        match l.find? (fun p => p.1 == token) with
        | none => none
        | some p => if now - p.2.created > SESSION_TIMEOUT then none else some p := by
  intro l
  induction l with
  | nil => intro _; rfl
  | cons q l ih =>
    intro hnd
    rw [List.map_cons, List.nodup_cons] at hnd
    obtain ⟨hq, hnd⟩ := hnd
    unfold cleanup_old_sessions at ih ⊢
    rw [List.filter_cons]
    by_cases hqt : (q.1 == token) = true
    · have hq1 : q.1 = token := eq_of_beq hqt
      rw [@List.find?_cons_of_pos _ (fun p => p.1 == token) q l hqt]
      by_cases hexp : now - q.2.created > SESSION_TIMEOUT
      · simp only [hexp, decide_True, Bool.not_true, Bool.false_eq_true, if_false, if_true]
        apply List.find?_eq_none.mpr
        intro x hx hxe
        have hxl : x ∈ l := List.mem_of_mem_filter hx
        have hxm : x.1 ∈ l.map Prod.fst := List.mem_map_of_mem _ hxl
        rw [eq_of_beq hxe, ← hq1] at hxm
        exact hq hxm
      · simp only [hexp, decide_False, Bool.not_false, if_true, if_false]
        rw [@List.find?_cons_of_pos _ (fun p => p.1 == token) q _ hqt]
    · rw [@List.find?_cons_of_neg _ (fun p => p.1 == token) q l hqt]
      by_cases hexp : now - q.2.created > SESSION_TIMEOUT
      · simp only [hexp, decide_True, Bool.not_true, Bool.false_eq_true, if_false]
        exact ih hnd
      · simp only [hexp, decide_False, Bool.not_false, if_true]
        rw [@List.find?_cons_of_neg _ (fun p => p.1 == token) q _ hqt]
        exact ih hnd

/-- C1 (amended): token resolution serves a live session, but maps an
expired token and a never-issued (or revoked) token to the *same*
"Session expired" signal — the interface does not distinguish
`SessionExpired` from `NotFound`. -/
theorem session_resolution (now : ℚ) (sessions : List (String × SessionData))
    (token : String) (hnodup : (sessions.map Prod.fst).Nodup) :
    (sessions.find? (fun p => p.1 == token) = none →
      endpointAuth now sessions token = .error "Session expired") ∧
    (∀ p, sessions.find? (fun q => q.1 == token) = some p →
      now - p.2.created > SESSION_TIMEOUT →
      endpointAuth now sessions token = .error "Session expired") ∧
    (∀ p, sessions.find? (fun q => q.1 == token) = some p →
      ¬(now - p.2.created > SESSION_TIMEOUT) →
      endpointAuth now sessions token = .ok p.2) := by
  have key := find?_cleanup now token sessions hnodup
  refine ⟨?_, ?_, ?_⟩
  · intro hf
    rw [hf] at key
    unfold endpointAuth get_session
    simp only [key]
  · intro p hf hexp
    rw [hf] at key
    replace key : List.find? (fun p => p.1 == token) (cleanup_old_sessions now sessions) =
        if now - p.2.created > SESSION_TIMEOUT then none else some p := key
    rw [if_pos hexp] at key
    unfold endpointAuth get_session
    simp only [key]
  · intro p hf hexp
    rw [hf] at key
    replace key : List.find? (fun p => p.1 == token) (cleanup_old_sessions now sessions) =
        if now - p.2.created > SESSION_TIMEOUT then none else some p := key
    rw [if_neg hexp] at key
    unfold endpointAuth get_session
    simp only [key, if_neg hexp]

/-- Witness for C1 (amended): a live session resolves to its data. -/
theorem session_resolution_witness :
    endpointAuth 100 [("a", ⟨Json.jnull, Json.jnull, 0⟩)] "a" =
      .ok (⟨Json.jnull, Json.jnull, 0⟩ : SessionData) :=
  (session_resolution 100 [("a", ⟨Json.jnull, Json.jnull, 0⟩)] "a" (by simp)).2.2
    ("a", ⟨Json.jnull, Json.jnull, 0⟩) rfl (by norm_num [SESSION_TIMEOUT])

/-- C1 counterexample: with one session issued at time 0 and the clock at
1000 (past the 900-second timeout), resolving the expired token and
resolving a never-issued token produce the identical "Session expired"
signal — there is no distinct `NotFound`. -/
theorem expired_and_unknown_token_same_signal :
    endpointAuth 1000 [("a", ⟨Json.jnull, Json.jnull, 0⟩)] "a" = .error "Session expired" ∧
    endpointAuth 1000 [("a", ⟨Json.jnull, Json.jnull, 0⟩)] "b" = .error "Session expired" := by
  have hexp : SESSION_TIMEOUT < (1000 : ℚ) := by norm_num [SESSION_TIMEOUT]
  constructor <;>
    simp [endpointAuth, get_session, cleanup_old_sessions, hexp, List.filter, List.find?,
      sub_zero]

/-- A login attempt under the limit, with every logged attempt inside
the window, is allowed and recorded. -/
theorem loginFlow_allowed (now : ℚ) (log : List ℚ)
    (h : ∀ t ∈ log, now - t < LOGIN_WINDOW) (hl : log.length < MAX_LOGIN_ATTEMPTS) :
    loginFlow now log = (true, log ++ [now]) := by
  unfold loginFlow check_rate_limit record_login_attempt
  have hf : log.filter (fun t => decide (now - t < LOGIN_WINDOW)) = log :=
    List.filter_eq_self.mpr (fun t ht => decide_eq_true (h t ht))
  simp [hf, hl]

/-- A login attempt at the limit, with every logged attempt inside the
window, is refused and not recorded. -/
theorem loginFlow_blocked (now : ℚ) (log : List ℚ)
    (h : ∀ t ∈ log, now - t < LOGIN_WINDOW) (hl : ¬log.length < MAX_LOGIN_ATTEMPTS) :
    loginFlow now log = (false, log) := by
  unfold loginFlow check_rate_limit record_login_attempt
  have hf : log.filter (fun t => decide (now - t < LOGIN_WINDOW)) = log :=
    List.filter_eq_self.mpr (fun t ht => decide_eq_true (h t ht))
  simp [hf, hl]

/-- C7: six ordered login attempts inside one sliding window: the first
five (= `MAX_LOGIN_ATTEMPTS`) are allowed and recorded, the sixth is
refused; once the window has fully elapsed past every recorded attempt,
the limiter allows again. -/
theorem rate_limit_attempt_sequence (t1 t2 t3 t4 t5 t6 T : ℚ)
    (h12 : t1 ≤ t2) (h23 : t2 ≤ t3) (h34 : t3 ≤ t4) (h45 : t4 ≤ t5) (h56 : t5 ≤ t6)
    (hw : t6 - t1 < LOGIN_WINDOW)
    (hT1 : LOGIN_WINDOW ≤ T - t1) (hT2 : LOGIN_WINDOW ≤ T - t2)
    (hT3 : LOGIN_WINDOW ≤ T - t3) (hT4 : LOGIN_WINDOW ≤ T - t4)
    (hT5 : LOGIN_WINDOW ≤ T - t5) :
    (runAttempts [t1, t2, t3, t4, t5, t6] []).1 = [true, true, true, true, true, false] ∧
    (check_rate_limit T (runAttempts [t1, t2, t3, t4, t5, t6] []).2).1 = true := by
  have w1 : loginFlow t1 [] = (true, [t1]) :=
    loginFlow_allowed t1 [] (by intro t ht; cases ht) (by norm_num [MAX_LOGIN_ATTEMPTS])
  have w2 : loginFlow t2 [t1] = (true, [t1, t2]) := by
    refine loginFlow_allowed t2 [t1] ?_ (by norm_num [MAX_LOGIN_ATTEMPTS])
    intro t ht
    simp only [List.mem_singleton] at ht
    subst ht
    linarith
  have w3 : loginFlow t3 [t1, t2] = (true, [t1, t2, t3]) := by
    refine loginFlow_allowed t3 [t1, t2] ?_ (by norm_num [MAX_LOGIN_ATTEMPTS])
    intro t ht
    simp only [List.mem_cons, List.mem_singleton, List.not_mem_nil, or_false] at ht
    rcases ht with rfl | rfl <;> linarith
  have w4 : loginFlow t4 [t1, t2, t3] = (true, [t1, t2, t3, t4]) := by
    refine loginFlow_allowed t4 [t1, t2, t3] ?_ (by norm_num [MAX_LOGIN_ATTEMPTS])
    intro t ht
    simp only [List.mem_cons, List.not_mem_nil, or_false] at ht
    rcases ht with rfl | rfl | rfl <;> linarith
  have w5 : loginFlow t5 [t1, t2, t3, t4] = (true, [t1, t2, t3, t4, t5]) := by
    refine loginFlow_allowed t5 [t1, t2, t3, t4] ?_ (by norm_num [MAX_LOGIN_ATTEMPTS])
    intro t ht
    simp only [List.mem_cons, List.not_mem_nil, or_false] at ht
    rcases ht with rfl | rfl | rfl | rfl <;> linarith
  have w6 : loginFlow t6 [t1, t2, t3, t4, t5] = (false, [t1, t2, t3, t4, t5]) := by
    refine loginFlow_blocked t6 [t1, t2, t3, t4, t5] ?_ (by norm_num [MAX_LOGIN_ATTEMPTS])
    intro t ht
    simp only [List.mem_cons, List.not_mem_nil, or_false] at ht
    rcases ht with rfl | rfl | rfl | rfl | rfl <;> linarith
  have hrun : runAttempts [t1, t2, t3, t4, t5, t6] [] =
      ([true, true, true, true, true, false], [t1, t2, t3, t4, t5]) := by
    simp [runAttempts, w1, w2, w3, w4, w5, w6]
  refine ⟨by rw [hrun], ?_⟩
  rw [hrun]
  have hempty : [t1, t2, t3, t4, t5].filter (fun t => decide (T - t < LOGIN_WINDOW)) = [] := by
    apply List.filter_eq_nil_iff.mpr
    intro t ht
    simp only [List.mem_cons, List.not_mem_nil, or_false] at ht
    simp only [decide_eq_true_eq]
    rcases ht with rfl | rfl | rfl | rfl | rfl <;> linarith
  unfold check_rate_limit
  simp [hempty, MAX_LOGIN_ATTEMPTS]

/-- Witness for C7 at attempt times 0..5 with the window re-check at
time 1000. -/
theorem rate_limit_attempt_sequence_witness :
    (runAttempts [0, 1, 2, 3, 4, 5] []).1 = [true, true, true, true, true, false] ∧
    (check_rate_limit 1000 (runAttempts [0, 1, 2, 3, 4, 5] []).2).1 = true :=
  rate_limit_attempt_sequence 0 1 2 3 4 5 1000
    (by norm_num) (by norm_num) (by norm_num) (by norm_num) (by norm_num)
    (by norm_num [LOGIN_WINDOW]) (by norm_num [LOGIN_WINDOW]) (by norm_num [LOGIN_WINDOW])
    (by norm_num [LOGIN_WINDOW]) (by norm_num [LOGIN_WINDOW]) (by norm_num [LOGIN_WINDOW])

/-- Totality of the code-point order on character lists. -/
theorem charListLe_total : ∀ as bs : List Char,
    charListLe as bs = true ∨ charListLe bs as = true := by
  intro as
  induction as with
  | nil => intro bs; left; rfl
  | cons a as ih =>
    intro bs
    cases bs with
    | nil => right; rfl
    | cons b bs =>
      by_cases h1 : a.toNat < b.toNat
      · left; simp [charListLe, h1]
      · by_cases h2 : b.toNat < a.toNat
        · right; simp [charListLe, h2]
        · rcases ih bs with h | h
          · left; simp [charListLe, h1, h2, h]
          · right; simp [charListLe, h1, h2, h]

/-- Transitivity of the code-point order on character lists. -/
theorem charListLe_trans : ∀ as bs cs : List Char,
    charListLe as bs = true → charListLe bs cs = true → charListLe as cs = true := by
  intro as
  induction as with
  | nil => intro bs cs _ _; rfl
  | cons a as ih =>
    intro bs cs h1 h2
    cases bs with
    | nil => simp [charListLe] at h1
    | cons b bs =>
      cases cs with
      | nil => simp [charListLe] at h2
      | cons c cs =>
        simp only [charListLe] at h1 h2 ⊢
        rcases Nat.lt_trichotomy a.toNat b.toNat with hab | hab | hab
        · rcases Nat.lt_trichotomy b.toNat c.toNat with hbc | hbc | hbc
          · simp [Nat.lt_trans hab hbc]
          · simp [show a.toNat < c.toNat by omega]
          · rw [if_neg (show ¬b.toNat < c.toNat by omega), if_pos hbc] at h2
            exact absurd h2 (by simp)
        · rcases Nat.lt_trichotomy b.toNat c.toNat with hbc | hbc | hbc
          · simp [show a.toNat < c.toNat by omega]
          · rw [if_neg (show ¬a.toNat < b.toNat by omega),
              if_neg (show ¬b.toNat < a.toNat by omega)] at h1
            rw [if_neg (show ¬b.toNat < c.toNat by omega),
              if_neg (show ¬c.toNat < b.toNat by omega)] at h2
            rw [if_neg (show ¬a.toNat < c.toNat by omega),
              if_neg (show ¬c.toNat < a.toNat by omega)]
            exact ih bs cs h1 h2
          · rw [if_neg (show ¬b.toNat < c.toNat by omega), if_pos hbc] at h2
            exact absurd h2 (by simp)
        · rw [if_neg (show ¬a.toNat < b.toNat by omega), if_pos hab] at h1
          exact absurd h1 (by simp)

/-- Totality of `keyLE` on two Python-comparable scalars. -/
theorem keyLE_total (a b : JScalar) (h : sameClass a b = true) :
    keyLE a b = true ∨ keyLE b a = true := by
  cases a <;> cases b <;>
    simp_all [keyLE, sameClass, scalarNumVal, strLe] <;>
    first
    | (split_ifs <;> omega)
    | omega
    | exact charListLe_total _ _

/-- Transitivity of `keyLE` on Python-comparable scalars. -/
theorem keyLE_trans (a b c : JScalar) (hab : sameClass a b = true)
    (hbc : sameClass b c = true) (h1 : keyLE a b = true) (h2 : keyLE b c = true) :
    keyLE a c = true := by
  cases a <;> cases b <;> cases c <;>
    simp_all [keyLE, sameClass, scalarNumVal, strLe] <;>
    first
    | (split_ifs at * <;> omega)
    | omega
    | exact charListLe_trans _ _ _ h1 h2

/-- `insertOrd` permutes. -/
theorem insertOrd_perm {α : Type} (le : α → α → Bool) (x : α) :
    ∀ l : List α, (insertOrd le x l).Perm (x :: l) := by
  intro l
  induction l with
  | nil => exact List.Perm.refl _
  | cons y ys ih =>
    unfold insertOrd
    by_cases h : le x y = true
    · rw [if_pos h]
    · rw [if_neg h]
      exact (ih.cons y).trans (List.Perm.swap x y ys)

/-- `insertionSortBy` permutes. -/
theorem insertionSortBy_perm {α : Type} (le : α → α → Bool) :
    ∀ l : List α, (insertionSortBy le l).Perm l := by
  intro l
  induction l with
  | nil => exact List.Perm.refl _
  | cons x xs ih => exact (insertOrd_perm le x _).trans (ih.cons x)

/-- Inserting below the pivot point preserves sortedness, given totality
and transitivity on the elements involved. -/
theorem insertOrd_pairwise {α : Type} (le : α → α → Bool) (x : α) :
    ∀ l : List α, List.Pairwise (fun a b => le a b = true) l →
      (∀ y ∈ l, le x y = true ∨ le y x = true) →
      (∀ y ∈ l, ∀ z ∈ l, le x y = true → le y z = true → le x z = true) →
      List.Pairwise (fun a b => le a b = true) (insertOrd le x l) := by
  intro l
  induction l with
  | nil =>
    intro _ _ _
    simp [insertOrd]
  | cons y ys ih =>
    intro hp htot htr
    rw [List.pairwise_cons] at hp
    obtain ⟨hy, hys⟩ := hp
    unfold insertOrd
    by_cases h : le x y = true
    · rw [if_pos h, List.pairwise_cons]
      refine ⟨?_, List.pairwise_cons.mpr ⟨hy, hys⟩⟩
      intro z hz
      rcases List.mem_cons.mp hz with rfl | hz
      · exact h
      · exact htr y (by simp) z (by simp [hz]) h (hy z hz)
    · rw [if_neg h, List.pairwise_cons]
      constructor
      · intro z hz
        rcases List.mem_cons.mp ((insertOrd_perm le x ys).mem_iff.mp hz) with rfl | hz2
        · rcases htot y (by simp) with hxy | hyx
          · exact absurd hxy h
          · exact hyx
        · exact hy z hz2
      · exact ih hys (fun z hz => htot z (by simp [hz]))
          (fun z hz w hw => htr z (by simp [hz]) w (by simp [hw]))

/-- The stable insertion sort is sorted, given totality and transitivity
on the list's elements. -/
theorem insertionSortBy_pairwise {α : Type} (le : α → α → Bool) :
    ∀ l : List α, (∀ a ∈ l, ∀ b ∈ l, le a b = true ∨ le b a = true) →
      (∀ a ∈ l, ∀ b ∈ l, ∀ c ∈ l, le a b = true → le b c = true → le a c = true) →
      List.Pairwise (fun a b => le a b = true) (insertionSortBy le l) := by
  intro l
  induction l with
  | nil =>
    intro _ _
    exact List.Pairwise.nil
  | cons x xs ih =>
    intro htot htr
    unfold insertionSortBy
    have hmem : ∀ y ∈ insertionSortBy le xs, y ∈ xs :=
      fun y hy => (insertionSortBy_perm le xs).mem_iff.mp hy
    apply insertOrd_pairwise
    · exact ih (fun a ha b hb => htot a (by simp [ha]) b (by simp [hb]))
        (fun a ha b hb c hc =>
          htr a (by simp [ha]) b (by simp [hb]) c (by simp [hc]))
    · intro y hy
      exact htot x (by simp) y (by simp [hmem y hy])
    · intro y hy z hz
      exact htr x (by simp) y (by simp [hmem y hy]) z (by simp [hmem z hz])

/-- A successful `pySorted` is a permutation of its input. -/
theorem pySorted_perm (l m : PyDict Counters) (h : pySorted l = .ok m) : m.Perm l := by
  unfold pySorted at h
  by_cases h1 : l.length ≤ 1
  · rw [if_pos h1] at h
    injection h with h
    subst h
    exact List.Perm.refl _
  · rw [if_neg h1] at h
    by_cases h2 : keysComparable l = true
    · rw [if_pos h2] at h
      injection h with h
      subst h
      exact insertionSortBy_perm _ _
    · rw [if_neg h2] at h
      exact absurd h (by simp)

/-- A successful `pySorted` output is sorted by key. -/
theorem pySorted_sorted (l m : PyDict Counters) (h : pySorted l = .ok m) :
    List.Pairwise (fun p q => keyLE p.1 q.1 = true) m := by
  unfold pySorted at h
  by_cases h1 : l.length ≤ 1
  · rw [if_pos h1] at h
    injection h with h
    subst h
    cases l with
    | nil => exact List.Pairwise.nil
    | cons a t =>
      cases t with
      | nil => simp
      | cons b u => simp at h1
  · rw [if_neg h1] at h
    by_cases h2 : keysComparable l = true
    · rw [if_pos h2] at h
      injection h with h
      subst h
      have hcls : ∀ p ∈ l, ∀ q ∈ l, sameClass p.1 q.1 = true := by
        intro p hp q hq
        have := List.all_eq_true.mp h2 p hp
        exact List.all_eq_true.mp this q hq
      apply insertionSortBy_pairwise
      · intro p hp q hq
        exact keyLE_total _ _ (hcls p hp q hq)
      · intro p hp q hq r hr hpq hqr
        exact keyLE_trans _ _ _ (hcls p hp q hq) (hcls q hq r hr) hpq hqr
    · rw [if_neg h2] at h
      exact absurd h (by simp)

/-- The keys of `by_subject` are unchanged by a counter bump. -/
theorem subjDictBump_keys (d : PyDict Counters) (k : JScalar) (c : Cat) :
    (subjDictBump d k c).map Prod.fst = d.map Prod.fst := by
  unfold subjDictBump
  rw [List.map_map]
  apply List.map_congr_left
  intro p _
  by_cases hp : p.1 = k <;> simp [hp]

/-- The four per-category fields of a counter bump. -/
theorem bumpCounters_spec (x : Counters) (cat : Cat) :
    (bumpCounters x cat).present = x.present + (if cat = Cat.present then 1 else 0) ∧
    (bumpCounters x cat).absent = x.absent + (if cat = Cat.absent then 1 else 0) ∧
    (bumpCounters x cat).late = x.late + (if cat = Cat.late then 1 else 0) ∧
    (bumpCounters x cat).excused = x.excused + (if cat = Cat.excused then 1 else 0) := by
  cases cat <;> simp [bumpCounters]

/-- Appending one record changes a per-subject category count by its
indicator. -/
theorem countCat_append (out : List AttEntry) (e : AttEntry) (k : JScalar) (c : Cat) :
    countCat (out ++ [e]) k c =
      countCat out k c + (if e.subject = k ∧ e.category = c then 1 else 0) := by
  unfold countCat
  rw [List.countP_append]
  congr 1
  simp only [List.countP_cons, List.countP_nil, Nat.zero_add]
  by_cases h1 : e.subject = k <;> by_cases h2 : e.category = c <;>
    simp [h1, h2]

/-- A count over records none of which match is zero. -/
theorem countCat_eq_zero (out : List AttEntry) (k : JScalar) (c : Cat)
    (h : ∀ e ∈ out, ¬(e.subject = k ∧ e.category = c)) : countCat out k c = 0 := by
  unfold countCat
  apply List.countP_eq_zero.mpr
  intro e he
  simp only [Bool.and_eq_true, beq_iff_eq]
  exact fun hc => h e he ⟨hc.1, hc.2⟩

/-- Inversion of one successful attendance-loop step: it appends exactly
one record, bumps the global counter of its category, creates the
subject's bucket if absent, and bumps the per-subject counter. -/
theorem attStep_shape {subjects teachers lessons types : PyDict Json}
    {st : AttState} {att : Json} {st' : AttState}
    (h : attStep subjects teachers lessons types st att = .ok st') :
    ∃ (key : JScalar) (cat : Cat) (entry : AttEntry),
      entry.subject = key ∧ entry.category = cat ∧
      st' = ⟨st.out ++ [entry], bumpStats st.stats cat,
        subjDictBump (if st.bySubj.any (fun p => p.1 == key) then st.bySubj
          else st.bySubj ++ [(key, ⟨0, 0, 0, 0⟩)]) key cat⟩ := by
  unfold attStep at h
  obtain ⟨typeObj, _, h⟩ := except_bind_ok h
  obtain ⟨typeId, _, h⟩ := except_bind_ok h
  obtain ⟨lessonObj, _, h⟩ := except_bind_ok h
  obtain ⟨lessonId, _, h⟩ := except_bind_ok h
  obtain ⟨addedBy, _, h⟩ := except_bind_ok h
  obtain ⟨teacherId, _, h⟩ := except_bind_ok h
  obtain ⟨typeKey, _, h⟩ := except_bind_ok h
  obtain ⟨subjectName, _, h⟩ := except_bind_ok h
  obtain ⟨teacherKey, _, h⟩ := except_bind_ok h
  obtain ⟨subjNameKey, _, h⟩ := except_bind_ok h
  obtain ⟨shortJ, _, h⟩ := except_bind_ok h
  obtain ⟨shortLower, _, h⟩ := except_bind_ok h
  obtain ⟨isPresence, _, h⟩ := except_bind_ok h
  obtain ⟨nameJ, _, h⟩ := except_bind_ok h
  obtain ⟨category, _, h⟩ := except_bind_ok h
  obtain ⟨dateJ, _, h⟩ := except_bind_ok h
  obtain ⟨semJ, _, h⟩ := except_bind_ok h
  obtain ⟨fn, _, h⟩ := except_bind_ok h
  obtain ⟨ln, _, h⟩ := except_bind_ok h
  simp only [pure, Except.pure, Except.ok.injEq] at h
  exact ⟨subjNameKey, category, _, rfl, rfl, h.symm⟩

/-- A property preserved by every successful step holds after a
successful monadic fold. -/
theorem foldlM_ok_invariant {α σ : Type} {step : σ → α → Except String σ} {P : σ → Prop}
    (hstep : ∀ st a st', P st → step st a = .ok st' → P st') :
    ∀ (items : List α) (init final : σ), P init →
      items.foldlM step init = .ok final → P final := by
  intro items
  induction items with
  | nil =>
    intro init final h0 h
    rw [List.foldlM_nil] at h
    simp only [pure, Except.pure, Except.ok.injEq] at h
    rwa [← h]
  | cons x xs ih =>
    intro init final h0 h
    rw [List.foldlM_cons] at h
    obtain ⟨mid, hmid, h⟩ := except_bind_ok h
    exact ih mid final (hstep init x mid h0 hmid) h

/-- One attendance-loop step preserves the loop invariant. -/
theorem attStep_inv {subjects teachers lessons types : PyDict Json}
    {st : AttState} {att : Json} {st' : AttState}
    (hP : StateInv st) (h : attStep subjects teachers lessons types st att = .ok st') :
    StateInv st' := by
  obtain ⟨key, cat, entry, hes, hec, rfl⟩ := attStep_shape h
  obtain ⟨hnd, hcnt, hsub⟩ := hP
  by_cases hany : (st.bySubj.any (fun p => p.1 == key)) = true
  · rw [if_pos hany]
    refine ⟨?_, ?_, ?_⟩
    · rw [subjDictBump_keys]
      exact hnd
    · intro p' hp'
      obtain ⟨p, hp, hgp⟩ := List.mem_map.mp hp'
      obtain ⟨c1, c2, c3, c4⟩ := hcnt p hp
      by_cases hpk : (p.1 == key) = true
      · have hpk' : p.1 = key := eq_of_beq hpk
        rw [if_pos hpk] at hgp
        subst hgp
        obtain ⟨b1, b2, b3, b4⟩ := bumpCounters_spec p.2 cat
        refine ⟨?_, ?_, ?_, ?_⟩ <;>
          simp only [b1, b2, b3, b4, countCat_append, hes, hec, hpk', c1, c2, c3, c4] <;>
          simp
      · rw [if_neg hpk] at hgp
        subst hgp
        have hne : ¬(entry.subject = p.1 ∧ entry.category = Cat.present) ∧
            ¬(entry.subject = p.1 ∧ entry.category = Cat.absent) ∧
            ¬(entry.subject = p.1 ∧ entry.category = Cat.late) ∧
            ¬(entry.subject = p.1 ∧ entry.category = Cat.excused) := by
          rw [hes]
          have : key ≠ p.1 := fun hk => hpk (beq_iff_eq.mpr hk.symm)
          exact ⟨fun hc => this hc.1, fun hc => this hc.1,
            fun hc => this hc.1, fun hc => this hc.1⟩
        refine ⟨?_, ?_, ?_, ?_⟩ <;>
          simp [countCat_append, hne.1, hne.2.1, hne.2.2.1, hne.2.2.2, c1, c2, c3, c4]
    · intro e he
      rcases List.mem_append.mp he with he | he
      · obtain ⟨p, hp, hpe⟩ := hsub e he
        by_cases hpk : p.1 = key
        · refine ⟨(p.1, bumpCounters p.2 cat), List.mem_map.mpr ⟨p, hp, ?_⟩, hpe⟩
          simp [hpk]
        · refine ⟨p, List.mem_map.mpr ⟨p, hp, ?_⟩, hpe⟩
          simp [hpk]
      · rw [List.mem_singleton.mp he]
        obtain ⟨p, hp, hpk⟩ := List.any_eq_true.mp hany
        refine ⟨(p.1, bumpCounters p.2 cat), ?_, ?_⟩
        · exact List.mem_map.mpr ⟨p, hp, by simp [hpk]⟩
        · rw [hes]
          exact eq_of_beq hpk
  · rw [if_neg hany]
    have hfresh : ∀ p ∈ st.bySubj, (p.1 == key) = false := by
      intro p hp
      by_contra hc
      exact hany (List.any_eq_true.mpr ⟨p, hp, by revert hc; cases (p.1 == key) <;> simp⟩)
    have hkeyfresh : key ∉ st.bySubj.map Prod.fst := by
      intro hk
      obtain ⟨p, hp, hpk⟩ := List.mem_map.mp hk
      have := hfresh p hp
      rw [hpk] at this
      simp at this
    have hout0 : ∀ c, countCat st.out key c = 0 := by
      intro c
      apply countCat_eq_zero
      intro e he hc
      obtain ⟨p, hp, hpe⟩ := hsub e he
      exact hkeyfresh (List.mem_map.mpr ⟨p, hp, by rw [hpe, hc.1]⟩)
    refine ⟨?_, ?_, ?_⟩
    · rw [subjDictBump_keys, List.map_append]
      rw [List.nodup_append]
      refine ⟨hnd, by simp, ?_⟩
      intro x hx hx2
      simp only [List.map_cons, List.map_nil, List.mem_singleton] at hx2
      subst hx2
      exact hkeyfresh hx
    · intro p' hp'
      obtain ⟨p, hp, hgp⟩ := List.mem_map.mp hp'
      rcases List.mem_append.mp hp with hp | hp
      · have hpk := hfresh p hp
        rw [hpk] at hgp
        simp only [Bool.false_eq_true, if_false] at hgp
        subst hgp
        obtain ⟨c1, c2, c3, c4⟩ := hcnt p hp
        have hne : key ≠ p.1 := by
          intro hk
          have := hfresh p hp
          rw [hk] at this
          simp at this
        refine ⟨?_, ?_, ?_, ?_⟩ <;>
          rw [countCat_append] <;>
          simp [hes, hne, c1, c2, c3, c4]
      · rw [List.mem_singleton.mp hp] at hgp
        simp only [beq_self_eq_true, if_true] at hgp
        subst hgp
        obtain ⟨b1, b2, b3, b4⟩ := bumpCounters_spec ⟨0, 0, 0, 0⟩ cat
        refine ⟨?_, ?_, ?_, ?_⟩ <;>
          simp only [b1, b2, b3, b4, countCat_append, hes, hec, hout0] <;>
          simp
    · intro e he
      rcases List.mem_append.mp he with he | he
      · obtain ⟨p, hp, hpe⟩ := hsub e he
        by_cases hpk : p.1 = key
        · refine ⟨(p.1, bumpCounters p.2 cat),
            List.mem_map.mpr ⟨p, List.mem_append.mpr (Or.inl hp), ?_⟩, hpe⟩
          simp [hpk]
        · refine ⟨p, List.mem_map.mpr ⟨p, List.mem_append.mpr (Or.inl hp), ?_⟩, hpe⟩
          simp [hpk]
      · rw [List.mem_singleton.mp he]
        refine ⟨(key, bumpCounters ⟨0, 0, 0, 0⟩ cat), ?_, by simp [hes]⟩
        refine List.mem_map.mpr ⟨(key, ⟨0, 0, 0, 0⟩), ?_, by simp⟩
        exact List.mem_append.mpr (Or.inr (by simp))

/-- Inversion of a successful attendance summary: it is `summarize` of
the state reached by folding `attStep` over the raw records, with the
per-subject dict sorted by name. -/
theorem att_success_inv {cookies : Bool} {r1 r2 r3 r4 r5 : UpstreamResp} {s : AttSummary}
    (h : get_attendances cookies r1 r2 r3 r4 r5 = .ok (.summary s)) :
    ∃ (subjects teachers lessons types : PyDict Json) (items : List Json)
      (final : AttState) (sorted : PyDict Counters),
      items.foldlM (attStep subjects teachers lessons types)
        ⟨[], ⟨0, 0, 0, 0, 0⟩, []⟩ = .ok final ∧
      pySorted final.bySubj = .ok sorted ∧
      s = summarize final sorted := by
  unfold get_attendances at h
  cases hd : get_data cookies r1 with
  | none =>
    rw [hd] at h
    exact absurd h (by simp)
  | some j =>
    rw [hd] at h
    by_cases ht : pyTruthy j = true
    · simp only [ht, Bool.not_true, Bool.false_eq_true, if_false] at h
      obtain ⟨hasAtt, hA, h⟩ := except_bind_ok h
      cases hasAtt with
      | false =>
        simp only [Bool.not_false, if_true] at h
        obtain ⟨hasErr, hE, h⟩ := except_bind_ok h
        cases hasErr <;> simp [pure, Except.pure] at h
      | true =>
        simp only [Bool.not_true, Bool.false_eq_true, if_false] at h
        obtain ⟨subjects, hS, h⟩ := except_bind_ok h
        obtain ⟨teachers, hT, h⟩ := except_bind_ok h
        obtain ⟨lessons, hL, h⟩ := except_bind_ok h
        obtain ⟨types, hTy, h⟩ := except_bind_ok h
        obtain ⟨rawList, hR, h⟩ := except_bind_ok h
        obtain ⟨items, hI, h⟩ := except_bind_ok h
        obtain ⟨final, hF, h⟩ := except_bind_ok h
        obtain ⟨sorted, hSo, h⟩ := except_bind_ok h
        simp only [pure, Except.pure, Except.ok.injEq, AttOut.summary.injEq] at h
        exact ⟨subjects, teachers, lessons, types, items, final, sorted, hF, hSo, h.symm⟩
    · simp only [Bool.not_eq_true] at ht
      simp [ht] at h

/-- C3 (amended): the overall percentage of every attendance summary is
Python `round` of the binary64 evaluation of
`(present+late)/(present+absent+late+excused)*100` (0 when all four
counters are 0), and every per-subject row's percentage is the same
float evaluation over that row's own four counters (100 when they are
all 0). -/
theorem attendance_percentage (cookies : Bool) (r1 r2 r3 r4 r5 : UpstreamResp)
    (s : AttSummary) (se : SubjEntry)
    (h : get_attendances cookies r1 r2 r3 r4 r5 = .ok (.summary s))
    (hse : se ∈ s.bySubject) :
    s.percentage =
      overallPercentageFloat s.stats.present s.stats.absent s.stats.late s.stats.excused ∧
    se.percentage = subjectPercentageFloat se.present se.absent se.late se.excused := by
  obtain ⟨subjects, teachers, lessons, types, items, final, sorted, hF, hSo, rfl⟩ :=
    att_success_inv h
  constructor
  · rcases Nat.eq_zero_or_pos
        (final.stats.present + final.stats.absent + final.stats.late +
          final.stats.excused) with h0 | h0
    · simp [summarize, overallPercentageFloat, h0]
    · simp [summarize, overallPercentageFloat, h0, Nat.pos_iff_ne_zero.mp h0]
  · simp only [summarize] at hse
    have h1 : se ∈ sorted.map mkSubjEntry :=
      (insertionSortBy_perm pctGE _).mem_iff.mp hse
    obtain ⟨p, hp, rfl⟩ := List.mem_map.mp h1
    rcases Nat.eq_zero_or_pos (p.2.present + p.2.absent + p.2.late + p.2.excused)
        with h0 | h0
    · simp [mkSubjEntry, subjectPercentageFloat, h0]
    · simp [mkSubjEntry, subjectPercentageFloat, h0, Nat.pos_iff_ne_zero.mp h0]

/-- Witness for C3 (amended) on the spec's end-to-end example (late,
present, present, absent for one subject: overall percentage 75). -/
theorem attendance_percentage_witness :
    S3.percentage =
      overallPercentageFloat S3.stats.present S3.stats.absent S3.stats.late
        S3.stats.excused ∧
    (⟨.str "Math", 2, 0, 1, 1, 75⟩ : SubjEntry).percentage =
      subjectPercentageFloat 2 1 1 0 :=
  attendance_percentage true (.ok attBody3) (.ok subjBody3) .otherStatus (.ok lessBody3)
    (.ok typesBody3) S3 ⟨.str "Math", 2, 0, 1, 1, 75⟩ rfl (by simp [S3])

set_option maxRecDepth 8000 in
/-- C3 counterexample: with 23 present and 17 absent records the program
computes percentage 57 for the summary and for the subject row — the
binary64 value of `23/40*100` is just below 57.5 — while the claim's
formula `round((23+0)/40*100)` rounds the exact 57.5 to 58 (both under
round-half-even and round-half-away-from-zero). -/
theorem float_round_differs_from_exact :
    get_attendances true (.ok attBodyF) .otherStatus .otherStatus .otherStatus
      (.ok typesBody3) = .ok (.summary SF) ∧
    SF.percentage = 57 ∧
    SF.bySubject.map SubjEntry.percentage = [57] ∧
    overallPercentageSpec 23 17 0 0 = 58 ∧
    subjectPercentageSpec 23 17 0 0 = 58 ∧
    (57 : Nat) ≠ 58 :=
  ⟨rfl, rfl, rfl, rfl, rfl, by decide⟩

/-- In a list of rows with pairwise-distinct names, filtering by a
member's name yields exactly that member. -/
theorem filter_name_eq_singleton :
    ∀ (l : List SubjEntry) (x : SubjEntry), (l.map SubjEntry.name).Nodup → x ∈ l →
      l.filter (fun se => se.name == x.name) = [x] := by
  intro l
  induction l with
  | nil =>
    intro x _ hx
    cases hx
  | cons y t ih =>
    intro x hnd hx
    rw [List.map_cons, List.nodup_cons] at hnd
    obtain ⟨hy, hnd⟩ := hnd
    rw [List.filter_cons]
    rcases List.mem_cons.mp hx with rfl | hx
    · simp only [beq_self_eq_true, if_true]
      have hnil : t.filter (fun se => se.name == x.name) = [] := by
        apply List.filter_eq_nil_iff.mpr
        intro z hz hzx
        exact hy (List.mem_map.mpr ⟨z, hz, eq_of_beq hzx⟩)
      rw [hnil]
    · have hyx : (y.name == x.name) = false := by
        cases hb : (y.name == x.name) with
        | false => rfl
        | true => exact absurd (List.mem_map.mpr ⟨x, hx, (eq_of_beq hb).symm⟩) hy
      rw [hyx]
      simp only [Bool.false_eq_true, if_false]
      exact ih x hnd hx

/-- C10: if a summary contains a record of subject X and every record of
subject X classifies as `other`, the per-subject breakdown still
contains exactly one row for X — the bucket is created before
classification — and that row carries four zero counters and percentage
100 (`other` records never increment the bucket). -/
theorem all_other_subject (cookies : Bool) (r1 r2 r3 r4 r5 : UpstreamResp)
    (s : AttSummary) (e : AttEntry)
    (h : get_attendances cookies r1 r2 r3 r4 r5 = .ok (.summary s))
    (he : e ∈ s.attendances)
    (hall : ∀ x ∈ s.attendances, x.subject = e.subject → x.category = Cat.other) :
    breakdownRowsFor s e.subject = [⟨e.subject, 0, 0, 0, 0, 100⟩] := by
  obtain ⟨subjects, teachers, lessons, types, items, final, sorted, hF, hSo, rfl⟩ :=
    att_success_inv h
  have hinv : StateInv final :=
    foldlM_ok_invariant (fun st a st' hP hstep => attStep_inv hP hstep) items _ final
      ⟨by simp, fun p hp => absurd hp (List.not_mem_nil p),
        fun x hx => absurd hx (List.not_mem_nil x)⟩ hF
  obtain ⟨hnd, hcnt, hsub⟩ := hinv
  simp only [summarize] at he hall
  obtain ⟨p, hp, hpk⟩ := hsub e he
  have hzero : ∀ c, c ≠ Cat.other → countCat final.out p.1 c = 0 := by
    intro c hcc
    apply countCat_eq_zero
    intro x hx hcx
    have hxo := hall x hx (hpk ▸ hcx.1)
    exact hcc (by rw [← hcx.2]; exact hxo)
  obtain ⟨c1, c2, c3, c4⟩ := hcnt p hp
  have z1 : p.2.present = 0 := by rw [c1]; exact hzero _ (by decide)
  have z2 : p.2.absent = 0 := by rw [c2]; exact hzero _ (by decide)
  have z3 : p.2.late = 0 := by rw [c3]; exact hzero _ (by decide)
  have z4 : p.2.excused = 0 := by rw [c4]; exact hzero _ (by decide)
  have hmk : mkSubjEntry p = ⟨e.subject, 0, 0, 0, 0, 100⟩ := by
    simp [mkSubjEntry, z1, z2, z3, z4, hpk]
  have hperm : sorted.Perm final.bySubj := pySorted_perm _ _ hSo
  have hndsorted : (sorted.map Prod.fst).Nodup := ((hperm.map Prod.fst).nodup_iff).mpr hnd
  have hrow : mkSubjEntry p ∈ insertionSortBy pctGE (sorted.map mkSubjEntry) :=
    (insertionSortBy_perm pctGE _).mem_iff.mpr
      (List.mem_map.mpr ⟨p, hperm.mem_iff.mpr hp, rfl⟩)
  have hndnames :
      ((insertionSortBy pctGE (sorted.map mkSubjEntry)).map SubjEntry.name).Nodup := by
    refine (((insertionSortBy_perm pctGE _).map SubjEntry.name).nodup_iff).mpr ?_
    have hmn : (sorted.map mkSubjEntry).map SubjEntry.name = sorted.map Prod.fst := by
      rw [List.map_map]
      apply List.map_congr_left
      intro q _
      rfl
    rw [hmn]
    exact hndsorted
  have hfil := filter_name_eq_singleton _ _ hndnames hrow
  rw [hmk] at hfil
  exact hfil

/-- Witness for C10 on a summary whose only record classifies `other`:
the breakdown still contains exactly the subject's all-zero row. -/
theorem all_other_subject_witness :
    breakdownRowsFor S1 (JScalar.str "Nieznany") =
      [⟨.str "Nieznany", 0, 0, 0, 0, 100⟩] :=
  all_other_subject true (.ok attBody1) .otherStatus .otherStatus .otherStatus .otherStatus
    S1 ⟨Json.jnull, .str "Nieznany", Json.jstr "", Json.jstr "", Cat.other, Json.jnum 1, ""⟩
    rfl (by simp [S1])
    (by intro x hx; simp [S1] at hx; subst hx; intro; rfl)

/-- Inserting an entry whose name precedes every element of an
`entryR`-sorted list (stably, by descending percentage) keeps the list
`entryR`-sorted. -/
theorem insertOrd_pct_pairwise (a : SubjEntry) :
    ∀ m : List SubjEntry, List.Pairwise entryR m → (∀ y ∈ m, NameLT a y) →
      List.Pairwise entryR (insertOrd pctGE a m) := by
  intro m
  induction m with
  | nil =>
    intro _ _
    simp [insertOrd, List.pairwise_singleton]
  | cons y ys ih =>
    intro hp hn
    rw [List.pairwise_cons] at hp
    obtain ⟨hy, hys⟩ := hp
    unfold insertOrd
    by_cases h : pctGE a y = true
    · rw [if_pos h, List.pairwise_cons]
      have hay : y.percentage ≤ a.percentage := of_decide_eq_true h
      refine ⟨?_, List.pairwise_cons.mpr ⟨hy, hys⟩⟩
      intro z hz
      rcases List.mem_cons.mp hz with rfl | hz
      · exact ⟨hay, fun _ => hn z (by simp)⟩
      · exact ⟨le_trans (hy z hz).1 hay, fun _ => hn z (by simp [hz])⟩
    · rw [if_neg h, List.pairwise_cons]
      have hlt : a.percentage < y.percentage := by
        unfold pctGE at h
        simp only [decide_eq_true_eq] at h
        omega
      constructor
      · intro z hz
        rcases List.mem_cons.mp ((insertOrd_perm pctGE a ys).mem_iff.mp hz) with rfl | hz2
        · exact ⟨le_of_lt hlt, fun hEq => absurd hEq (Nat.ne_of_gt hlt)⟩
        · exact hy z hz2
      · exact ih hys (fun z hz => hn z (by simp [hz]))

/-- The stable percentage sort of a strictly name-ascending list is
sorted by percentage descending with name-ascending ties. -/
theorem sortPct_pairwise :
    ∀ m : List SubjEntry, List.Pairwise NameLT m →
      List.Pairwise entryR (insertionSortBy pctGE m) := by
  intro m
  induction m with
  | nil =>
    intro _
    exact List.Pairwise.nil
  | cons a as ih =>
    intro hp
    rw [List.pairwise_cons] at hp
    obtain ⟨ha, has⟩ := hp
    unfold insertionSortBy
    apply insertOrd_pct_pairwise
    · exact ih has
    · intro y hy
      exact ha y ((insertionSortBy_perm pctGE as).mem_iff.mp hy)

/-- C6: in every attendance summary the `bySubject` list is sorted by
percentage descending, and rows of equal percentage appear in ascending
subject-name order (the name sort happens first and the percentage sort
is stable). -/
theorem by_subject_sorted (cookies : Bool) (r1 r2 r3 r4 r5 : UpstreamResp)
    (s : AttSummary) (i j : Nat) (hij : i < j) (hj : j < s.bySubject.length)
    (h : get_attendances cookies r1 r2 r3 r4 r5 = .ok (.summary s)) :
    entryR (s.bySubject.get ⟨i, Nat.lt_trans hij hj⟩) (s.bySubject.get ⟨j, hj⟩) := by
  obtain ⟨subjects, teachers, lessons, types, items, final, sorted, hF, hSo, hs⟩ :=
    att_success_inv h
  have hinv : StateInv final :=
    foldlM_ok_invariant (fun st a st' hP hstep => attStep_inv hP hstep) items _ final
      ⟨by simp, fun p hp => absurd hp (List.not_mem_nil p),
        fun x hx => absurd hx (List.not_mem_nil x)⟩ hF
  have hnd : (final.bySubj.map Prod.fst).Nodup := hinv.1
  have hsorted : List.Pairwise (fun p q : JScalar × Counters => keyLE p.1 q.1 = true)
      sorted := pySorted_sorted _ _ hSo
  have hperm : sorted.Perm final.bySubj := pySorted_perm _ _ hSo
  have hndsorted : (sorted.map Prod.fst).Nodup := ((hperm.map Prod.fst).nodup_iff).mpr hnd
  have hne : List.Pairwise (fun p q : JScalar × Counters => p.1 ≠ q.1) sorted :=
    List.pairwise_map.mp hndsorted
  have hcomb := hsorted.and hne
  have hNameLT : List.Pairwise NameLT (sorted.map mkSubjEntry) := by
    rw [List.pairwise_map]
    exact hcomb.imp (fun hpq => ⟨hpq.1, hpq.2⟩)
  have hPair : List.Pairwise entryR (insertionSortBy pctGE (sorted.map mkSubjEntry)) :=
    sortPct_pairwise _ hNameLT
  subst hs
  exact List.pairwise_iff_get.mp hPair ⟨i, Nat.lt_trans hij hj⟩ ⟨j, hj⟩ hij

/-- Witness for C6 on a two-subject summary (Alg 100 percent before
Bio 0 percent, although Bio's record came first). -/
theorem by_subject_sorted_witness :
    entryR (S6.bySubject.get ⟨0, by norm_num [S6]⟩) (S6.bySubject.get ⟨1, by norm_num [S6]⟩) :=
  by_subject_sorted true (.ok attBody6) (.ok subjBody6) .otherStatus (.ok lessBody6)
    (.ok typesBody3) S6 0 1 (by norm_num) (by norm_num [S6]) rfl

end SchoolApp